import Mathlib

/-!
A shallow embedding of the ledger core of the GREBot repository
(`transaction_data.py`, class `TransactionData`) and proofs about it.

Modelling conventions:
* Python `datetime` values produced by `strptime(s, '%Y-%m-%d')` are midnight
  timestamps; they are modelled as `Int` day numbers (days since 1970-01-01,
  Gregorian).  `datetime.now()` is passed explicitly as a `now : Date`
  parameter; `(now - date).days` is `now - date` on day numbers.
* Python floats are modelled as `ℚ`.
* A composite key (a Python tuple of strings) is a `List KElem`; the
  `str(strike_price)` and `expiry.strftime('%Y-%m-%d')` components are kept as
  the underlying number (`KElem.num`) since both renderings are injective, so
  key equality is preserved.
* A Python `dict` keyed by dates (`defaultdict(float)`) is a
  `Date → Option ℚ` (`none` = key absent); the outer `defaultdict` keeps an
  insertion-ordered key list plus a total lookup function.
* Exceptions (`ValueError`, `ZeroDivisionError`) raised by queries are
  modelled with `Except PyErr`; inside `process_transaction` the
  `try/except KeyError/ValueError` handlers make the function total, so each
  potential raise point returns the state accumulated so far.
-/

/-- Python exception values that the embedded operations can produce. -/
inductive PyErr where
  | valueError (msg : String)
  | zeroDivisionError
deriving DecidableEq, Repr

/-- One component of a composite balance key: Python tuple entries are strings
or (for the strike component, via the injective `str`) floats. -/
inductive KElem where
  | str (s : String)
  | num (q : ℚ)
deriving DecidableEq, Repr

abbrev Key := List KElem

/-- Day number (days since 1970-01-01). -/
abbrev Date := Int

/-- Either an already-numeric amount or a textual one
(`parse_amount`'s `Union[str, int, float]` argument). -/
inductive AmountVal where
  | num (q : ℚ)
  | str (s : String)
deriving DecidableEq, Repr

/-! ### String helpers (models of the Python builtins used)

All character-level helpers are structurally recursive over `List Char`, so
concrete applications reduce inside the kernel. -/

/-- Python whitespace (the default `str.strip()` set). -/
def pyWS (c : Char) : Bool :=
  c = ' ' ∨ c = '\t' ∨ c = '\n' ∨ c = '\r' ∨ c = '\x0b' ∨ c = '\x0c'

/-- Python `str.strip()`. -/
def pyStrip (s : String) : String :=
  ⟨((s.data.dropWhile pyWS).reverse.dropWhile pyWS).reverse⟩

/-- Python `str.split(sep)` for a one-character separator. -/
def splitOnChar (c : Char) : List Char → List (List Char)
  | [] => [[]]
  | x :: xs =>
    match splitOnChar c xs with
    | [] => [[x]]
    | h :: t => if x = c then [] :: h :: t else (x :: h) :: t

/-- Every character is an ASCII digit. -/
def allDigits (l : List Char) : Bool := l.all Char.isDigit

/-- Value of a digit string (most significant first). -/
def natOfDigits (l : List Char) : Nat :=
  l.foldl (fun a c => a * 10 + (c.toNat - 48)) 0

/-- Python `pat in s` substring test. -/
def containsSub (pat : List Char) : List Char → Bool
  | [] => pat.isEmpty
  | x :: rest => pat.isPrefixOf (x :: rest) || containsSub pat rest

def strContains (s pat : String) : Bool := containsSub pat.data s.data

/-- Python `str.lower()`. -/
def pyLower (s : String) : String := ⟨s.data.map Char.toLower⟩

/-- Python `str.replace('$','').replace('€','').replace('£','').replace(',','')`:
removing every occurrence of a single character equals filtering it out. -/
def cleanCurrency (s : String) : String :=
  ⟨s.data.filter (fun c => !(c = '$' || c = '€' || c = '£' || c = ','))⟩

/-- `s.startswith(c)` for a single character. -/
def startsChar (s : String) (c : Char) : Bool :=
  match s.data with
  | x :: _ => x = c
  | [] => false

/-- `s.endswith(c)` for a single character. -/
def endsChar (s : String) (c : Char) : Bool :=
  match s.data.getLast? with
  | some x => x = c
  | none => false

/-- Mantissa of a decimal literal: `digits`, `digits.digits`, `digits.` or
`.digits` (at least one digit overall). -/
def mantissaQ (m : List Char) : Option ℚ :=
  match splitOnChar '.' m with
  | [ip] =>
    if ip.length ≠ 0 ∧ allDigits ip then some ((natOfDigits ip : ℚ)) else none
  | [ip, fp] =>
    if ip.length + fp.length ≠ 0 ∧ allDigits ip ∧ allDigits fp then
      some ((natOfDigits ip : ℚ) + (natOfDigits fp : ℚ) / (10 : ℚ) ^ fp.length)
    else none
  | _ => none

/-- Exponent part of a decimal literal: optional sign, then digits. -/
def exponentZ (e : List Char) : Option Int :=
  let (sg, body) : Int × List Char :=
    match e with
    | '-' :: r => (-1, r)
    | '+' :: r => (1, r)
    | r => (1, r)
  if body.length ≠ 0 ∧ allDigits body then some (sg * natOfDigits body) else none

/-- Model of Python `float(s)` on finite decimal literals: surrounding
whitespace tolerated, optional sign, mantissa, optional `e`/`E` exponent;
`none` models the `ValueError` raise.  (The `inf`/`nan`/underscore forms
accepted by CPython never arise from this program's inputs.) -/
def pyFloat (s : String) : Option ℚ :=
  let t := (pyStrip s).data
  let (sgn, body) : ℚ × List Char :=
    match t with
    | '-' :: r => (-1, r)
    | '+' :: r => (1, r)
    | r => (1, r)
  match splitOnChar 'e' (body.map Char.toLower) with
  | [m] => (mantissaQ m).map (fun q => sgn * q)
  | [m, ex] =>
    match mantissaQ m, exponentZ ex with
    | some mv, some ev => some (sgn * mv * (10 : ℚ) ^ ev)
    | _, _ => none
  | _ => none

/-! ### Calendar (model of `datetime.strptime(_, '%Y-%m-%d')`) -/

def isLeap (y : Nat) : Bool := (y % 4 = 0 && y % 100 ≠ 0) || y % 400 = 0

def daysInMonth (y m : Nat) : Nat :=
  if m = 2 then (if isLeap y then 29 else 28)
  else if m = 4 ∨ m = 6 ∨ m = 9 ∨ m = 11 then 30
  else 31

/-- Gregorian day number of year-month-day relative to 1970-01-01
(standard civil-from-days algorithm; valid for years ≥ 1). -/
def daysFromCivil (y m d : Nat) : Date :=
  let y' := if m ≤ 2 then y - 1 else y
  let era := y' / 400
  let yoe := y' % 400
  let mp := (m + 9) % 12
  let doy := (153 * mp + 2) / 5 + d - 1
  let doe := yoe * 365 + yoe / 4 - yoe / 100 + doy
  ((era * 146097 + doe : Nat) : Int) - 719468

/-- Model of `datetime.strptime(s, '%Y-%m-%d')`: `%Y` is exactly four digits,
`%m`/`%d` one or two digits in range, the day validated against the month
length; `none` models the `ValueError` raise. -/
def parseDate (s : String) : Option Date :=
  match splitOnChar '-' s.data with
  | [ys, ms, ds] =>
    if ys.length = 4 ∧ allDigits ys ∧
       1 ≤ ms.length ∧ ms.length ≤ 2 ∧ allDigits ms ∧
       1 ≤ ds.length ∧ ds.length ≤ 2 ∧ allDigits ds then
      let y := natOfDigits ys
      let m := natOfDigits ms
      let d := natOfDigits ds
      if 1 ≤ y ∧ 1 ≤ m ∧ m ≤ 12 ∧ 1 ≤ d ∧ d ≤ daysInMonth y m then
        some (daysFromCivil y m d)
      else none
    else none
  | _ => none

/-! ### Daily-balance series -/

/-- One daily-balance series: the inner `defaultdict(float)` mapping dates to
values; `none` means the date is absent from the dict. -/
def Series := Date → Option ℚ

def Series.empty : Series := fun _ => none

/-- One iteration of the forward-fill loop body:
`daily_balance[day] += amount` (absent dates read as `0.0`). -/
def addDay (s : Series) (day : Date) (amount : ℚ) : Series :=
  fun x => if x = day then some ((s day).getD 0 + amount) else s x

/-- `for day in (date + timedelta(n) for n in range(count)): daily_balance[day] += amount`. -/
def fillDays (s : Series) (date : Date) (amount : ℚ) : Nat → Series
  | 0 => s
  | n + 1 => addDay (fillDays s date amount n) (date + n) amount

/-- `TransactionData.update_daily_balance` restricted to one series:
`range((current_date - date).days + 1)` iterations (empty when negative). -/
def Series.update (s : Series) (date now : Date) (amount : ℚ) : Series :=
  fillDays s date amount (now - date + 1).toNat

/-- The store for one balance category: the outer `defaultdict` from composite
key to series, with `keys` recording the dict's insertion order. -/
structure CatStore where
  keys : List Key
  series : Key → Series

def CatStore.empty : CatStore := ⟨[], fun _ => Series.empty⟩

/-- `self.daily_balances[balance_type][key]` access plus the fill loop:
the `defaultdict` inserts the key if absent, then the loop adds `amount`
to every day from `date` through `now`. -/
def CatStore.update (cs : CatStore) (k : Key) (date now : Date) (amount : ℚ) : CatStore :=
  { keys := if k ∈ cs.keys then cs.keys else cs.keys ++ [k]
    series := fun k' =>
      if k' = k then (cs.series k).update date now amount else cs.series k' }

/-- The `self.daily_balances` dict: a fixed set of seven category entries. -/
structure DailyBalances where
  investments : CatStore
  revenue : CatStore
  opt_positions : CatStore
  opt_notional : CatStore
  stk_shares : CatStore
  stk_notional : CatStore
  cash_balances : CatStore

def DailyBalances.empty : DailyBalances :=
  ⟨CatStore.empty, CatStore.empty, CatStore.empty, CatStore.empty,
   CatStore.empty, CatStore.empty, CatStore.empty⟩

/-- Dict lookup `self.daily_balances[balance_type]`; `none` models the lookup
failing (`balance_type not in self.daily_balances`). -/
def DailyBalances.getCat (db : DailyBalances) (balance_type : String) : Option CatStore :=
  if balance_type = "investments" then some db.investments
  else if balance_type = "revenue" then some db.revenue
  else if balance_type = "opt_positions" then some db.opt_positions
  else if balance_type = "opt_notional" then some db.opt_notional
  else if balance_type = "stk_shares" then some db.stk_shares
  else if balance_type = "stk_notional" then some db.stk_notional
  else if balance_type = "cash_balances" then some db.cash_balances
  else none

/-- Writing one category entry back into `self.daily_balances`. -/
def DailyBalances.setCat (db : DailyBalances) (balance_type : String) (cs : CatStore) :
    DailyBalances :=
  if balance_type = "investments" then { db with investments := cs }
  else if balance_type = "revenue" then { db with revenue := cs }
  else if balance_type = "opt_positions" then { db with opt_positions := cs }
  else if balance_type = "opt_notional" then { db with opt_notional := cs }
  else if balance_type = "stk_shares" then { db with stk_shares := cs }
  else if balance_type = "stk_notional" then { db with stk_notional := cs }
  else if balance_type = "cash_balances" then { db with cash_balances := cs }
  else db

/-- The seven valid balance-category names. -/
def balanceCategories : List String :=
  ["investments", "revenue", "opt_positions", "opt_notional",
   "stk_shares", "stk_notional", "cash_balances"]

/-! ### Transaction rows and ledger state -/

/-- One CSV row (`Dict[str, str]`); `none` models an absent key (a `[...]`
access on it raises `KeyError`).  `acct_bom` is the `'﻿Acct'` entry. -/
structure Row where
  acct_bom : Option String := none
  acct : Option String := none
  date : Option String := none
  currency : Option String := none
  margin : Option String := none
  trans_type : Option String := none
  net_gains : Option AmountVal := none
  ticker : Option String := none
  notes : Option String := none
  shares : Option AmountVal := none
  strike_price : Option AmountVal := none
  expiry : Option String := none
deriving DecidableEq, Repr

/-- The `TransactionData` instance state.  The three `cache_*` fields model
the per-instance `lru_cache` storage of the three memoized getters. -/
structure TransactionData where
  transactions : List Row
  daily_balances : DailyBalances
  first_transaction_date : Option Date
  last_update : Option Date
  cache_currencies : Option (List KElem)
  cache_accounts : Option (List KElem)
  cache_tickers : Option (List KElem)
  LOCLimit : ℚ
  LOCUsage : ℚ

/-- `TransactionData.__init__`. -/
def TransactionData.init (LOCLimit LOCUsage : ℚ) : TransactionData :=
  { transactions := []
    daily_balances := DailyBalances.empty
    first_transaction_date := none
    last_update := none
    cache_currencies := none
    cache_accounts := none
    cache_tickers := none
    LOCLimit := LOCLimit
    LOCUsage := LOCUsage }

/-- `TransactionData.parse_amount`. -/
def TransactionData.parse_amount (value : AmountVal) : ℚ :=
  match value with
  | .num q => q
  | .str s =>
    let value := pyStrip s
    if value = "-" ∨ value = "" ∨ value = "$-" ∨ value = " $-" then 0
    else
      let value := cleanCurrency value
      if startsChar value '(' ∧ endsChar value ')' then
        match pyFloat ⟨(value.data.drop 1).dropLast⟩ with
        | some q => -q
        | none => 0
      else
        match pyFloat value with
        | some q => q
        | none => 0

/-- `TransactionData.update_daily_balance`.  Callers only pass the seven
valid category names, so the `none` branch (a `KeyError` in Python) is dead
for every call site in the source. -/
def TransactionData.update_daily_balance (td : TransactionData) (balance_type : String)
    (key : Key) (date : Date) (amount : ℚ) (now : Date) : TransactionData :=
  match td.daily_balances.getCat balance_type with
  | some cs =>
    { td with daily_balances :=
        td.daily_balances.setCat balance_type (cs.update key date now amount) }
  | none => td

/-- `TransactionData.process_transaction`.  The `try` block's
`except KeyError` / `except ValueError` handlers only print, so every raise
point inside it returns the state accumulated so far; the source's two
separate `if` blocks for Put/Call and Stk are written as `if`/`else if`
(their guards are mutually exclusive since `trans_type` is a single string). -/
def TransactionData.process_transaction (td : TransactionData) (transaction : Row)
    (now : Date) : TransactionData :=
  let transaction :=
    match transaction.acct_bom with
    | some v => { transaction with acct := some v, acct_bom := none }
    | none => transaction
  match transaction.acct with
  | none => td
  | some account =>
    let td := { td with transactions := td.transactions ++ [transaction] }
    match transaction.date with
    | none => td
    | some dstr =>
      match parseDate dstr with
      | none => td
      | some date =>
        let td :=
          match td.first_transaction_date with
          | none => { td with first_transaction_date := some date }
          | some ftd =>
            if date < ftd then { td with first_transaction_date := some date } else td
        match transaction.currency, transaction.margin, transaction.trans_type,
              transaction.net_gains, transaction.ticker with
        | some currency, some margin, some trans_type, some ng, some ticker =>
          let amount := TransactionData.parse_amount ng
          let notes := pyLower (transaction.notes.getD "")
          let td :=
            if trans_type = "Cash" then
              if strContains notes "invest" ∧ strContains notes "pre convert" then
                td.update_daily_balance "investments"
                  [.str account, .str currency, .str "regular"] date amount now
              else if strContains notes "margin cover" ∨
                  strContains notes "short term juicing" then
                td.update_daily_balance "investments"
                  [.str account, .str currency, .str "temp"] date amount now
              else if strContains notes "personal withdraw" then
                td.update_daily_balance "investments"
                  [.str account, .str currency, .str "regular"] date amount now
              else td
            else td
          let td := td.update_daily_balance "cash_balances"
            [.str account, .str currency] date amount now
          let td :=
            if trans_type = "Put" ∨ trans_type = "Call" ∨ trans_type = "Cap Gains" ∨
                trans_type = "Div" ∨ trans_type = "Int / Tax" then
              td.update_daily_balance "revenue"
                [.str account, .str currency, .str ticker, .str trans_type] date amount now
            else td
          if trans_type = "Put" ∨ trans_type = "Call" then
            match transaction.shares with
            | none => td
            | some sh =>
              let shares := TransactionData.parse_amount sh
              let strike_price :=
                TransactionData.parse_amount (transaction.strike_price.getD (.str "0"))
              match transaction.expiry with
              | none => td
              | some estr =>
                match parseDate estr with
                | none => td
                | some expiry =>
                  let optKey : Key := [.str account, .str currency, .str margin,
                    .str ticker, .str trans_type, .num strike_price, .num expiry]
                  let td := td.update_daily_balance "opt_positions" optKey date shares now
                  td.update_daily_balance "opt_notional" optKey date (shares * strike_price) now
          else if trans_type = "Stk" then
            match transaction.shares with
            | none => td
            | some sh =>
              let shares := TransactionData.parse_amount sh
              let stkKey : Key := [.str account, .str currency, .str margin, .str ticker]
              let td := td.update_daily_balance "stk_shares" stkKey date shares now
              td.update_daily_balance "stk_notional" stkKey date (-amount) now
          else td
        | _, _, _, _, _ => td

/-! ### Memoized dimension getters -/

/-- `get_currencies`: `list(set(key[1] for key in cash_balances.keys()))`,
memoized by `lru_cache` (keyed on the instance); a Python `set`'s iteration
order is unspecified, so the distinct list is modelled with `List.dedup`. -/
def TransactionData.get_currencies (td : TransactionData) :
    List KElem × TransactionData :=
  match td.cache_currencies with
  | some l => (l, td)
  | none =>
    let l := (td.daily_balances.cash_balances.keys.filterMap (fun k => k[1]?)).dedup
    (l, { td with cache_currencies := some l })

/-- `get_accounts`: `list(set(key[0] for key in cash_balances.keys()))`, memoized. -/
def TransactionData.get_accounts (td : TransactionData) :
    List KElem × TransactionData :=
  match td.cache_accounts with
  | some l => (l, td)
  | none =>
    let l := (td.daily_balances.cash_balances.keys.filterMap (fun k => k[0]?)).dedup
    (l, { td with cache_accounts := some l })

/-- The `key[2]` / `key[3]` extraction of `get_tickers` for one category
(the `len(key) > idx` guard included). -/
def tickersFrom (cs : CatStore) (idx : Nat) : List KElem :=
  cs.keys.filterMap (fun k => if idx < k.length then k[idx]? else none)

/-- `get_tickers`: tickers across revenue / opt_positions / stk_shares /
stk_notional keys, memoized. -/
def TransactionData.get_tickers (td : TransactionData) :
    List KElem × TransactionData :=
  match td.cache_tickers with
  | some l => (l, td)
  | none =>
    let l := (tickersFrom td.daily_balances.revenue 2
      ++ tickersFrom td.daily_balances.opt_positions 3
      ++ tickersFrom td.daily_balances.stk_shares 3
      ++ tickersFrom td.daily_balances.stk_notional 3).dedup
    (l, { td with cache_tickers := some l })

/-- `clear_cache`: `cache_clear()` on the three memoized getters. -/
def TransactionData.clear_cache (td : TransactionData) : TransactionData :=
  { td with cache_currencies := none, cache_accounts := none, cache_tickers := none }

/-- `update_cache`: clear then recompute all three getters. -/
def TransactionData.update_cache (td : TransactionData) : TransactionData :=
  let td := td.clear_cache
  let (_, td) := td.get_currencies
  let (_, td) := td.get_accounts
  let (_, td) := td.get_tickers
  td

/-- `process_csv`: the row loop (one `process_transaction` per row in order),
then `last_update = datetime.now()`, then the three diagnostic getter calls
(which populate the memo caches).  File I/O and the CSV reader are external;
the already-field-mapped rows are the input. -/
def TransactionData.process_csv (td : TransactionData) (rows : List Row)
    (now : Date) : TransactionData :=
  let td := rows.foldl (fun acc row => acc.process_transaction row now) td
  let td := { td with last_update := some now }
  let (_, td) := td.get_accounts
  let (_, td) := td.get_currencies
  let (_, td) := td.get_tickers
  td

/-! ### Queries -/

/-- One `key[i] == filt` comparison (`None` filter matches everything;
comparing a non-string component with a string is `False` in Python). -/
def optMatch (filt : Option String) (e : Option KElem) : Bool :=
  match filt with
  | none => true
  | some s => e = some (KElem.str s)

/-- `key[i] in tickers` (`None` matches everything). -/
def tickersMatch (tickers : Option (List String)) (e : Option KElem) : Bool :=
  match tickers with
  | none => true
  | some ts =>
    match e with
    | some (.str t) => t ∈ ts
    | _ => false

/-- `TransactionData._match_filters`.  Keys built by this program always have
the arity their category requires, so the out-of-range accesses Python would
raise `IndexError` on are modelled as non-matches. -/
def matchFilters (key : Key) (balance_type : String) (account currency : Option String)
    (tickers : Option (List String)) (margin investment_type : Option String) : Bool :=
  if balance_type = "investments" then
    optMatch account key[0]? && optMatch currency key[1]? &&
      optMatch investment_type key[2]?
  else if balance_type = "opt_positions" ∨ balance_type = "opt_notional" ∨
      balance_type = "stk_shares" ∨ balance_type = "stk_notional" then
    optMatch account key[0]? && optMatch currency key[1]? &&
      optMatch margin key[2]? && tickersMatch tickers key[3]?
  else if balance_type = "revenue" then
    optMatch account key[0]? && optMatch currency key[1]? &&
      tickersMatch tickers key[2]?
  else if balance_type = "cash_balances" then
    optMatch account key[0]? && optMatch currency key[1]?
  else
    false

/-- `breakdown[bk] = breakdown.get(bk, 0) + balance` on an insertion-ordered
dict modelled as an association list. -/
def bumpKey : List (Key × ℚ) → Key → ℚ → List (Key × ℚ)
  | [], k, v => [(k, v)]
  | e :: rest, k, v =>
    if e.1 = k then (e.1, e.2 + v) :: rest else e :: bumpKey rest k v

/-- `TransactionData.get_spot_balance`.  The `isinstance(tickers, str)`
wrapping is a Python typing shim; the embedding takes the list form directly.
Returns `(total_balance, breakdown)` or the raised `ValueError`. -/
def TransactionData.get_spot_balance (td : TransactionData) (date : Date)
    (balance_type : String) (account currency : Option String)
    (tickers : Option (List String)) (margin investment_type : Option String) :
    Except PyErr (ℚ × List (Key × ℚ)) :=
  match td.daily_balances.getCat balance_type with
  | none => .error (.valueError ("Invalid balance type: " ++ balance_type))
  | some cs =>
    .ok (cs.keys.foldl
      (fun acc key =>
        match cs.series key date with
        | none => acc
        | some balance =>
          if matchFilters key balance_type account currency tickers margin
              investment_type then
            let breakdown_key := if balance_type = "investments" then key.take 3 else key
            (acc.1 + balance, bumpKey acc.2 breakdown_key balance)
          else acc)
      (0, []))

/-- Python `/` on numbers: raises `ZeroDivisionError` on a zero divisor. -/
def pyDivQ (x : ℚ) (d : Int) : Except PyErr ℚ :=
  if d = 0 then .error .zeroDivisionError else .ok (x / d)

/-- The `while current_date <= end_date` accumulation loop of
`get_average_balance`, with the remaining iteration count as fuel. -/
def avgLoop (td : TransactionData) (balance_type : String)
    (account currency : Option String) (tickers : Option (List String))
    (margin investment_type : Option String) :
    Nat → Date → ℚ × List (Key × ℚ) → Except PyErr (ℚ × List (Key × ℚ))
  | 0, _, acc => .ok acc
  | n + 1, current, acc =>
    match td.get_spot_balance current balance_type account currency tickers margin
        investment_type with
    | .error e => .error e
    | .ok (daily_total, daily_breakdown) =>
      avgLoop td balance_type account currency tickers margin investment_type n
        (current + 1)
        (acc.1 + daily_total,
         daily_breakdown.foldl (fun b e => bumpKey b e.1 e.2) acc.2)

/-- `TransactionData.get_average_balance`: `day_count = (end - start).days + 1`,
the daily accumulation loop, then the two divisions (the dict-comprehension
divisions cannot raise once `total_sum / day_count` succeeded). -/
def TransactionData.get_average_balance (td : TransactionData)
    (start_date end_date : Date) (balance_type : String)
    (account currency : Option String) (tickers : Option (List String))
    (margin investment_type : Option String) :
    Except PyErr (ℚ × List (Key × ℚ)) :=
  if (td.daily_balances.getCat balance_type).isNone then
    .error (.valueError ("Invalid balance type: " ++ balance_type))
  else
    let day_count : Int := end_date - start_date + 1
    match avgLoop td balance_type account currency tickers margin investment_type
        day_count.toNat start_date (0, []) with
    | .error e => .error e
    | .ok (total_sum, breakdown_sum) =>
      match pyDivQ total_sum day_count with
      | .error e => .error e
      | .ok average_total =>
        .ok (average_total,
          breakdown_sum.map (fun e => (e.1, e.2 / (day_count : ℚ))))

/-! ### Statement-level definitions and concrete example rows -/

/-- Replaying a list of `(effective date, delta)` updates on one series,
starting from the absent/empty series — the forward-filled state one
(category, key) pair reaches after those transactions. -/
def applyDeltas (now : Int) (l : List (Int × ℚ)) : Series :=
  l.foldl (fun s u => s.update u.1 now u.2) Series.empty

/-- The series stored for a (category, key) pair (`Series.empty` for a
category name absent from the dict). -/
def catSeries (td : TransactionData) (bt : String) (k : Key) : Series :=
  match td.daily_balances.getCat bt with
  | some cs => cs.series k
  | none => Series.empty

/-- A Put row with every field present but an unparsable `Expiry`. -/
def exampleBadExpiryRow : Row :=
  { acct := some "A", date := some "2024-03-01", currency := some "USD",
    margin := some "0%", trans_type := some "Put",
    net_gains := some (.str "150.00"), ticker := some "XYZ",
    shares := some (.num (-1)), strike_price := some (.num 50),
    expiry := some "not-a-date" }

/-- The stock scenario row: account A, USD, margin 0%, ticker XYZ, 100
shares, net gains -5000.00, dated 2024-01-10. -/
def exampleStkRow : Row :=
  { acct := some "A", date := some "2024-01-10", currency := some "USD",
    margin := some "0%", trans_type := some "Stk",
    net_gains := some (.str "-5000.00"), ticker := some "XYZ",
    shares := some (.str "100") }

/-- The option scenario row: a Put, -1 contract at strike 50 expiring
2024-06-21, net gains 150.00, dated 2024-03-01. -/
def examplePutRow : Row :=
  { acct := some "A", date := some "2024-03-01", currency := some "USD",
    margin := some "0%", trans_type := some "Put",
    net_gains := some (.str "150.00"), ticker := some "XYZ",
    shares := some (.str "-1"), strike_price := some (.str "50"),
    expiry := some "2024-06-21" }

/-- Concrete Cash rows used by the memoization counterexample. -/
def exampleCashRowA : Row :=
  { acct := some "A", date := some "2024-01-01", currency := some "USD",
    margin := some "0%", trans_type := some "Cash",
    net_gains := some (.num 100), ticker := some "T" }

def exampleCashRowB : Row :=
  { acct := some "B", date := some "2024-01-01", currency := some "USD",
    margin := some "0%", trans_type := some "Cash",
    net_gains := some (.num 100), ticker := some "T" }

def lookupD (l : List (Key × ℚ)) (k : Key) : ℚ :=
  match l.find? (fun e => decide (e.1 = k)) with
  | some e => e.2
  | none => 0

def sumKey (l : List (Key × ℚ)) (k : Key) : ℚ :=
  ((l.filter (fun e => decide (e.1 = k))).map Prod.snd).sum

def mergeB (b : List (Key × ℚ)) (l : List (Key × ℚ)) : List (Key × ℚ) :=
  l.foldl (fun acc e => bumpKey acc e.1 e.2) b

def exTotal (r : Except PyErr (ℚ × List (Key × ℚ))) : ℚ :=
  match r with
  | .ok p => p.1
  | .error _ => 0

def exBreakdown (r : Except PyErr (ℚ × List (Key × ℚ))) : List (Key × ℚ) :=
  match r with
  | .ok p => p.2
  | .error _ => []

def exLookup (r : Except PyErr (ℚ × List (Key × ℚ))) (k : Key) : ℚ :=
  lookupD (exBreakdown r) k

/-! ### Forward-fill lemmas -/

/-- Pointwise effect of the fill loop: days `date, …, date+n-1` get `+amount`
(absent days read as zero), all other days are untouched. -/
theorem fillDays_apply (s : Series) (date : Int) (amount : ℚ) (n : Nat) (x : Int) :
    fillDays s date amount n x =
      if date ≤ x ∧ x < date + n then some ((s x).getD 0 + amount) else s x := by
  induction n with
  | zero =>
    simp only [fillDays]
    rw [if_neg (by omega)]
  | succ n ih =>
    simp only [fillDays, addDay]
    by_cases hx : x = date + (n : Int)
    · subst hx
      rw [if_pos rfl, ih, if_neg (by omega), if_pos (by constructor <;> omega)]
    · rw [if_neg hx, ih]
      by_cases hr : date ≤ x ∧ x < date + (n : Int)
      · rw [if_pos hr, if_pos ⟨hr.1, by omega⟩]
      · rw [if_neg hr, if_neg (by omega)]

/-- Pointwise effect of `update_daily_balance` on one series: every day from
`date` through `now` gets `+amount`, every other day is untouched. -/
theorem Series.update_apply (s : Series) (date now : Int) (amount : ℚ) (x : Int) :
    s.update date now amount x =
      if date ≤ x ∧ x ≤ now then some ((s x).getD 0 + amount) else s x := by
  unfold Series.update
  rw [fillDays_apply]
  by_cases h : date ≤ x ∧ x ≤ now
  · rw [if_pos (by constructor <;> omega), if_pos h]
  · rw [if_neg (by omega), if_neg h]

theorem applyDeltas_append (now : Int) (l : List (Int × ℚ)) (u : Int × ℚ) :
    applyDeltas now (l ++ [u]) = (applyDeltas now l).update u.1 now u.2 := by
  unfold applyDeltas
  rw [List.foldl_append, List.foldl_cons, List.foldl_nil]

/-- Closed form of a replayed series: a day `x ≤ now` is present iff some
update's effective date is `≤ x`, and then holds the sum of all deltas whose
effective date is `≤ x`. -/
theorem applyDeltas_apply (now : Int) (l : List (Int × ℚ)) (x : Int) :
    applyDeltas now l x =
      if (l.any (fun u => u.1 ≤ x)) ∧ x ≤ now then
        some (((l.filter (fun u => u.1 ≤ x)).map Prod.snd).sum)
      else none := by
  induction l using List.reverseRecOn with
  | nil => simp [applyDeltas, Series.empty]
  | append_singleton l u ih =>
    rw [applyDeltas_append, Series.update_apply, ih]
    by_cases hle : x ≤ now
    · by_cases hu : u.1 ≤ x
      · rw [if_pos ⟨hu, hle⟩]
        by_cases hl : l.any (fun v => v.1 ≤ x)
        · rw [if_pos ⟨hl, hle⟩, if_pos (by simp [hl, hu, hle])]
          simp [List.filter_append, hu]
        · rw [if_neg (by simp [hl]), if_pos (by simp [hl, hu, hle])]
          have hfilter : l.filter (fun v => decide (v.1 ≤ x)) = [] := by
            rw [List.filter_eq_nil_iff]
            intro v hv
            simp only [List.any_eq_true, decide_eq_true_eq] at hl
            simp only [decide_eq_true_eq]
            exact fun hvx => hl ⟨v, hv, hvx⟩
          simp [List.filter_append, hu, hfilter]
      · have hany : ((l ++ [u]).any (fun v => decide (v.1 ≤ x)))
            = (l.any (fun v => decide (v.1 ≤ x))) := by
          simp [List.any_append, hu]
        by_cases hl : l.any (fun v => v.1 ≤ x)
        · rw [if_neg (by omega)]
          rw [if_pos ⟨hl, hle⟩, if_pos (by rw [hany]; exact ⟨hl, hle⟩)]
          simp [List.filter_append, hu]
        · rw [if_neg (by omega), if_neg (by simp [hl]),
            if_neg (by rw [hany]; simp [hl])]
    · rw [if_neg (by omega), if_neg (by omega), if_neg (by omega)]

/-- No-intervening-transaction invariant at the series level: if `D1 ≤ D2` are
both within the filled range (the earlier one is present and the later one is
at most "now") and no update's effective date lies in `(D1, D2]`, the stored
values at `D1` and `D2` coincide. -/
theorem applyDeltas_no_intervening (now : Int) (l : List (Int × ℚ)) (D1 D2 : Int)
    (h12 : D1 ≤ D2) (h2 : D2 ≤ now)
    (h1 : (applyDeltas now l D1).isSome)
    (hno : ∀ u ∈ l, ¬ (D1 < u.1 ∧ u.1 ≤ D2)) :
    applyDeltas now l D1 = applyDeltas now l D2 := by
  rw [applyDeltas_apply] at h1 ⊢
  rw [applyDeltas_apply]
  by_cases hany : l.any (fun u => u.1 ≤ D1)
  · have hany2 : (l.any (fun u => decide (u.1 ≤ D2))) = true := by
      simp only [List.any_eq_true, decide_eq_true_eq] at hany ⊢
      obtain ⟨u, hu, hux⟩ := hany
      exact ⟨u, hu, by omega⟩
    have h1le : D1 ≤ now := by omega
    rw [if_pos ⟨hany, h1le⟩, if_pos ⟨hany2, h2⟩]
    have : l.filter (fun u => decide (u.1 ≤ D1)) = l.filter (fun u => decide (u.1 ≤ D2)) := by
      apply List.filter_congr
      intro u hu
      have := hno u hu
      rw [decide_eq_decide]
      omega
    rw [this]
  · rw [if_neg (by simp [hany])] at h1
    exact absurd h1 (by decide)

/-! ### Category-dict lemmas -/

theorem getCat_of_mem (db : DailyBalances) (bt : String) (h : bt ∈ balanceCategories) :
    ∃ cs, db.getCat bt = some cs := by
  simp only [balanceCategories, List.mem_cons, List.mem_singleton] at h
  rcases h with rfl | rfl | rfl | rfl | rfl | rfl | rfl | h
  all_goals first
    | exact ⟨_, rfl⟩
    | exact absurd h (List.not_mem_nil _)

theorem getCat_setCat_same (db : DailyBalances) (bt : String) (cs : CatStore)
    (h : bt ∈ balanceCategories) : (db.setCat bt cs).getCat bt = some cs := by
  simp only [balanceCategories, List.mem_cons, List.mem_singleton] at h
  rcases h with rfl | rfl | rfl | rfl | rfl | rfl | rfl | h
  all_goals first
    | rfl
    | exact absurd h (List.not_mem_nil _)

theorem getCat_upd_investments (db : DailyBalances) (cs : CatStore) (bt' : String)
    (h : bt' ≠ "investments") :
    DailyBalances.getCat { db with investments := cs } bt' = db.getCat bt' := by
  unfold DailyBalances.getCat
  simp only [if_neg h]

theorem getCat_upd_revenue (db : DailyBalances) (cs : CatStore) (bt' : String)
    (h : bt' ≠ "revenue") :
    DailyBalances.getCat { db with revenue := cs } bt' = db.getCat bt' := by
  unfold DailyBalances.getCat
  simp only [if_neg h]

theorem getCat_upd_opt_positions (db : DailyBalances) (cs : CatStore) (bt' : String)
    (h : bt' ≠ "opt_positions") :
    DailyBalances.getCat { db with opt_positions := cs } bt' = db.getCat bt' := by
  unfold DailyBalances.getCat
  simp only [if_neg h]

theorem getCat_upd_opt_notional (db : DailyBalances) (cs : CatStore) (bt' : String)
    (h : bt' ≠ "opt_notional") :
    DailyBalances.getCat { db with opt_notional := cs } bt' = db.getCat bt' := by
  unfold DailyBalances.getCat
  simp only [if_neg h]

theorem getCat_upd_stk_shares (db : DailyBalances) (cs : CatStore) (bt' : String)
    (h : bt' ≠ "stk_shares") :
    DailyBalances.getCat { db with stk_shares := cs } bt' = db.getCat bt' := by
  unfold DailyBalances.getCat
  simp only [if_neg h]

theorem getCat_upd_stk_notional (db : DailyBalances) (cs : CatStore) (bt' : String)
    (h : bt' ≠ "stk_notional") :
    DailyBalances.getCat { db with stk_notional := cs } bt' = db.getCat bt' := by
  unfold DailyBalances.getCat
  simp only [if_neg h]

theorem getCat_upd_cash_balances (db : DailyBalances) (cs : CatStore) (bt' : String)
    (h : bt' ≠ "cash_balances") :
    DailyBalances.getCat { db with cash_balances := cs } bt' = db.getCat bt' := by
  unfold DailyBalances.getCat
  simp only [if_neg h]

theorem getCat_setCat_ne (db : DailyBalances) (bt bt' : String) (cs : CatStore)
    (hmem : bt ∈ balanceCategories) (h : bt' ≠ bt) :
    (db.setCat bt cs).getCat bt' = db.getCat bt' := by
  simp only [balanceCategories, List.mem_cons, List.mem_singleton] at hmem
  rcases hmem with rfl | rfl | rfl | rfl | rfl | rfl | rfl | hmem
  · exact getCat_upd_investments db cs bt' h
  · exact getCat_upd_revenue db cs bt' h
  · exact getCat_upd_opt_positions db cs bt' h
  · exact getCat_upd_opt_notional db cs bt' h
  · exact getCat_upd_stk_shares db cs bt' h
  · exact getCat_upd_stk_notional db cs bt' h
  · exact getCat_upd_cash_balances db cs bt' h
  · exact absurd hmem (List.not_mem_nil _)

/-- C1: for every balance category, key, effective date `D ≤ now` and delta,
`update_daily_balance` adds the delta to the stored series value at every day
from `D` through `now` (absent days read as zero, so a fresh series starts
from zero), leaves all days before `D` unchanged and the series of every
other (category, key) pair unchanged; and — the forward-fill consequence — a
series replayed from a list of updates has equal stored values at any two
in-range days `D1 ≤ D2` with no update's effective date in `(D1, D2]`. -/
theorem C1_update_daily_balance_forward_fill :
    (∀ (td : TransactionData) (bt : String) (key : Key) (date now : Int) (amount : ℚ),
      bt ∈ balanceCategories → date ≤ now →
      (∀ x : Int, date ≤ x → x ≤ now →
        catSeries (td.update_daily_balance bt key date amount now) bt key x
          = some ((catSeries td bt key x).getD 0 + amount)) ∧
      (∀ x : Int, x < date →
        catSeries (td.update_daily_balance bt key date amount now) bt key x
          = catSeries td bt key x) ∧
      (∀ (bt' : String) (key' : Key), ¬ (bt' = bt ∧ key' = key) →
        catSeries (td.update_daily_balance bt key date amount now) bt' key'
          = catSeries td bt' key')) ∧
    (∀ (now : Int) (l : List (Int × ℚ)) (D1 D2 : Int),
      D1 ≤ D2 → D2 ≤ now → (applyDeltas now l D1).isSome →
      (∀ u ∈ l, ¬ (D1 < u.1 ∧ u.1 ≤ D2)) →
      applyDeltas now l D1 = applyDeltas now l D2) := by
  constructor
  · intro td bt key date now amount hbt hdn
    obtain ⟨cs, hcs⟩ := getCat_of_mem td.daily_balances bt hbt
    have hnew : (td.update_daily_balance bt key date amount now).daily_balances
        = td.daily_balances.setCat bt (cs.update key date now amount) := by
      unfold TransactionData.update_daily_balance
      rw [hcs]
    have e1 : catSeries (td.update_daily_balance bt key date amount now) bt key
        = (cs.update key date now amount).series key := by
      unfold catSeries
      rw [hnew, getCat_setCat_same _ _ _ hbt]
    have e2 : (cs.update key date now amount).series key
        = (cs.series key).update date now amount := by
      simp [CatStore.update]
    have e3 : catSeries td bt key = cs.series key := by
      unfold catSeries
      rw [hcs]
    refine ⟨?_, ?_, ?_⟩
    · intro x h1 h2
      rw [e1, e2, e3, Series.update_apply, if_pos ⟨h1, h2⟩]
    · intro x h1
      rw [e1, e2, e3, Series.update_apply, if_neg (by omega)]
    · intro bt' key' hne
      by_cases hbt' : bt' = bt
      · subst hbt'
        have hk : key' ≠ key := fun hk => hne ⟨rfl, hk⟩
        unfold catSeries
        rw [hnew, getCat_setCat_same _ _ _ hbt, hcs]
        simp [CatStore.update, hk]
      · unfold catSeries
        rw [hnew, getCat_setCat_ne _ _ _ _ hbt hbt']
  · intro now l D1 D2 h12 h2 h1 hno
    exact applyDeltas_no_intervening now l D1 D2 h12 h2 h1 hno

/-- Witness for C1 at a concrete input: the cash series of a fresh ledger
after one update at day 0 (with `now = 2`) holds the delta at day 1. -/
theorem C1_update_daily_balance_forward_fill_witness :
    catSeries ((TransactionData.init 0 0).update_daily_balance "cash_balances"
        [KElem.str "A"] 0 5 2) "cash_balances" [KElem.str "A"] 1
      = some ((catSeries (TransactionData.init 0 0) "cash_balances"
        [KElem.str "A"] 1).getD 0 + 5) :=
  (C1_update_daily_balance_forward_fill.1 (TransactionData.init 0 0) "cash_balances"
    [KElem.str "A"] 0 2 5 (by simp [balanceCategories]) (by omega)).1 1
    (by omega) (by omega)

/-! ### Load/append equivalence -/

theorem get_accounts_preserves (td : TransactionData) :
    (td.get_accounts).2.transactions = td.transactions ∧
    (td.get_accounts).2.daily_balances = td.daily_balances ∧
    (td.get_accounts).2.first_transaction_date = td.first_transaction_date := by
  unfold TransactionData.get_accounts
  cases td.cache_accounts <;> exact ⟨rfl, rfl, rfl⟩

theorem get_currencies_preserves (td : TransactionData) :
    (td.get_currencies).2.transactions = td.transactions ∧
    (td.get_currencies).2.daily_balances = td.daily_balances ∧
    (td.get_currencies).2.first_transaction_date = td.first_transaction_date := by
  unfold TransactionData.get_currencies
  cases td.cache_currencies <;> exact ⟨rfl, rfl, rfl⟩

theorem get_tickers_preserves (td : TransactionData) :
    (td.get_tickers).2.transactions = td.transactions ∧
    (td.get_tickers).2.daily_balances = td.daily_balances ∧
    (td.get_tickers).2.first_transaction_date = td.first_transaction_date := by
  unfold TransactionData.get_tickers
  cases td.cache_tickers <;> exact ⟨rfl, rfl, rfl⟩

/-- C2: the bulk load (`process_csv` row loop) produces the same transaction
log, the same daily balance series for every category, and the same
`first_transaction_date` as appending the same rows one at a time in order
via `process_transaction`.  (`process_csv` additionally sets `last_update`
and populates the dimension memo caches, which are not part of the claim.) -/
theorem C2_load_append_equivalence (td : TransactionData) (rows : List Row) (now : Int) :
    (td.process_csv rows now).transactions
        = (rows.foldl (fun acc row => acc.process_transaction row now) td).transactions ∧
    (td.process_csv rows now).daily_balances
        = (rows.foldl (fun acc row => acc.process_transaction row now) td).daily_balances ∧
    (td.process_csv rows now).first_transaction_date
        = (rows.foldl (fun acc row => acc.process_transaction row now) td).first_transaction_date := by
  unfold TransactionData.process_csv
  set base := rows.foldl (fun acc row => acc.process_transaction row now) td with hbase
  set t1 : TransactionData := { base with last_update := some now } with ht1
  have h1 : t1.transactions = base.transactions ∧ t1.daily_balances = base.daily_balances ∧
      t1.first_transaction_date = base.first_transaction_date := ⟨rfl, rfl, rfl⟩
  have h2 := get_accounts_preserves t1
  have h3 := get_currencies_preserves (t1.get_accounts).2
  have h4 := get_tickers_preserves ((t1.get_accounts).2.get_currencies).2
  refine ⟨?_, ?_, ?_⟩
  · rw [h4.1, h3.1, h2.1]
  · rw [h4.2.1, h3.2.1, h2.2.1]
  · rw [h4.2.2, h3.2.2, h2.2.2]

/-! ### Row-failure behaviour -/

theorem process_transaction_bad_date (td : TransactionData) (transaction : Row) (now : Int)
    (hdate : ∀ s, transaction.date = some s → parseDate s = none) :
    (td.process_transaction transaction now).daily_balances = td.daily_balances := by
  unfold TransactionData.process_transaction
  rcases hb : transaction.acct_bom with _ | v
  · simp only [hb]
    rcases ha : transaction.acct with _ | a
    · simp only [ha]
    · simp only [ha]
      rcases hd : transaction.date with _ | s
      · simp only [hd]
      · simp only [hd, hdate s hd]
  · simp only [hb]
    rcases hd : transaction.date with _ | s
    · simp only [hd]
    · simp only [hd, hdate s hd]

theorem udb_cash (td : TransactionData) (k : Key) (d a now) :
    (td.update_daily_balance "cash_balances" k d a now).daily_balances
      = { td.daily_balances with
          cash_balances := td.daily_balances.cash_balances.update k d now a } := rfl

theorem udb_revenue (td : TransactionData) (k : Key) (d a now) :
    (td.update_daily_balance "revenue" k d a now).daily_balances
      = { td.daily_balances with
          revenue := td.daily_balances.revenue.update k d now a } := rfl

theorem udb_stk_shares (td : TransactionData) (k : Key) (d a now) :
    (td.update_daily_balance "stk_shares" k d a now).daily_balances
      = { td.daily_balances with
          stk_shares := td.daily_balances.stk_shares.update k d now a } := rfl

theorem udb_stk_notional (td : TransactionData) (k : Key) (d a now) :
    (td.update_daily_balance "stk_notional" k d a now).daily_balances
      = { td.daily_balances with
          stk_notional := td.daily_balances.stk_notional.update k d now a } := rfl

theorem udb_opt_positions (td : TransactionData) (k : Key) (d a now) :
    (td.update_daily_balance "opt_positions" k d a now).daily_balances
      = { td.daily_balances with
          opt_positions := td.daily_balances.opt_positions.update k d now a } := rfl

theorem udb_opt_notional (td : TransactionData) (k : Key) (d a now) :
    (td.update_daily_balance "opt_notional" k d a now).daily_balances
      = { td.daily_balances with
          opt_notional := td.daily_balances.opt_notional.update k d now a } := rfl

/-- A Put/Call row whose `Expiry` does not parse is only partially skipped:
the `cash_balances` and `revenue` updates are applied before the `Expiry`
parse raises, and only the option-store updates are skipped. -/
theorem put_call_bad_expiry (td : TransactionData) (transaction : Row) (now : Int)
    (a c m tt tick : String) (ng sh : AmountVal) (ds es : String) (d : Int)
    (hbom : transaction.acct_bom = none)
    (hacct : transaction.acct = some a)
    (hdate : transaction.date = some ds) (hd : parseDate ds = some d)
    (hcur : transaction.currency = some c) (hmar : transaction.margin = some m)
    (htt : transaction.trans_type = some tt)
    (hng : transaction.net_gains = some ng)
    (htick : transaction.ticker = some tick)
    (hputcall : tt = "Put" ∨ tt = "Call")
    (hsh : transaction.shares = some sh)
    (hexp : transaction.expiry = some es) (he : parseDate es = none) :
    (td.process_transaction transaction now).daily_balances.opt_positions
        = td.daily_balances.opt_positions ∧
    (td.process_transaction transaction now).daily_balances.opt_notional
        = td.daily_balances.opt_notional ∧
    (td.process_transaction transaction now).daily_balances.cash_balances
        = td.daily_balances.cash_balances.update [.str a, .str c] d now
            (TransactionData.parse_amount ng) ∧
    (td.process_transaction transaction now).daily_balances.revenue
        = td.daily_balances.revenue.update [.str a, .str c, .str tick, .str tt] d now
            (TransactionData.parse_amount ng) := by
  unfold TransactionData.process_transaction
  simp only [hbom, hacct, hdate, hd, hcur, hmar, htt, hng, htick, hsh, hexp, he]
  rcases hputcall with rfl | rfl <;>
  · simp only [reduceIte]
    cases htf : td.first_transaction_date <;> simp only [htf]
    case none => simp [udb_cash, udb_revenue, CatStore.update]
    case some f =>
      by_cases hlt : d < f <;> simp [hlt, udb_cash, udb_revenue, CatStore.update]

/-! ### Concrete amount evaluations

`ℚ` arithmetic does not reduce inside the kernel, so each concrete
`parse_amount` value is obtained by `rfl` up to the symbolic rational the
definition produces, then closed by `norm_num`. -/

theorem parse_amount_150 : TransactionData.parse_amount (.str "150.00") = 150 := by
  have h : TransactionData.parse_amount (.str "150.00")
      = 1 * (((150 : Nat) : ℚ) + ((0 : Nat) : ℚ) / (10 : ℚ) ^ (2 : Nat)) := rfl
  rw [h]
  norm_num

theorem parse_amount_neg5000 : TransactionData.parse_amount (.str "-5000.00") = -5000 := by
  have h : TransactionData.parse_amount (.str "-5000.00")
      = -1 * (((5000 : Nat) : ℚ) + ((0 : Nat) : ℚ) / (10 : ℚ) ^ (2 : Nat)) := rfl
  rw [h]
  norm_num

theorem parse_amount_100 : TransactionData.parse_amount (.str "100") = 100 := by
  have h : TransactionData.parse_amount (.str "100") = 1 * ((100 : Nat) : ℚ) := rfl
  rw [h]
  norm_num

/-- C3 counterexample: a Put row whose `Expiry` fails to parse is *not*
without effect on the balance series — its cash series changes from absent to
150 on 2024-03-04 (`now` = 2024-03-05 = day 19787), even though the option
stores stay empty — so the row is not "skipped as a whole". -/
theorem C3_counterexample :
    parseDate "not-a-date" = none ∧
    ((TransactionData.init 0 0).process_transaction exampleBadExpiryRow
        19787).daily_balances.cash_balances.series [.str "A", .str "USD"] 19786
      = some 150 ∧
    (TransactionData.init 0 0).daily_balances.cash_balances.series
        [.str "A", .str "USD"] 19786 = none ∧
    ((TransactionData.init 0 0).process_transaction exampleBadExpiryRow
        19787).daily_balances.opt_positions.keys = [] := by
  have h := put_call_bad_expiry (TransactionData.init 0 0) exampleBadExpiryRow 19787
    "A" "USD" "0%" "Put" "XYZ" (.str "150.00") (.num (-1)) "2024-03-01" "not-a-date" 19783
    rfl rfl rfl (by decide) rfl rfl rfl rfl rfl (Or.inl rfl) rfl rfl (by decide)
  refine ⟨by decide, ?_, rfl, ?_⟩
  · rw [h.2.2.1]
    simp only [CatStore.update, eq_self_iff_true, if_true]
    rw [Series.update_apply, if_pos (by omega), parse_amount_150]
    norm_num [TransactionData.init, DailyBalances.empty, CatStore.empty, Series.empty]
  · rw [h.1]
    rfl

/-- C3 (amended): a row whose `Date` fails to parse (or is absent) leaves
every daily balance series unchanged; but a Put/Call row whose `Expiry` fails
to parse is only *partially* skipped — its `cash_balances` and `revenue`
updates are already applied, only the option-store updates are skipped.  In
every case no exception escapes (`process_transaction` is total) and the
remaining rows of the batch are still processed.  (Numeric fields never fail
to parse: `parse_amount` coerces failures to `0.0`.) -/
theorem C3_row_failure_recovery :
    (∀ (td : TransactionData) (transaction : Row) (now : Int),
      (∀ s, transaction.date = some s → parseDate s = none) →
      (td.process_transaction transaction now).daily_balances = td.daily_balances) ∧
    (∀ (td : TransactionData) (transaction : Row) (now : Int)
        (a c m tt tick : String) (ng sh : AmountVal) (ds es : String) (d : Int),
      transaction.acct_bom = none → transaction.acct = some a →
      transaction.date = some ds → parseDate ds = some d →
      transaction.currency = some c → transaction.margin = some m →
      transaction.trans_type = some tt → transaction.net_gains = some ng →
      transaction.ticker = some tick → tt = "Put" ∨ tt = "Call" →
      transaction.shares = some sh → transaction.expiry = some es →
      parseDate es = none →
      (td.process_transaction transaction now).daily_balances.opt_positions
          = td.daily_balances.opt_positions ∧
      (td.process_transaction transaction now).daily_balances.opt_notional
          = td.daily_balances.opt_notional ∧
      (td.process_transaction transaction now).daily_balances.cash_balances
          = td.daily_balances.cash_balances.update [.str a, .str c] d now
              (TransactionData.parse_amount ng) ∧
      (td.process_transaction transaction now).daily_balances.revenue
          = td.daily_balances.revenue.update [.str a, .str c, .str tick, .str tt] d now
              (TransactionData.parse_amount ng)) ∧
    (∀ (td : TransactionData) (r : Row) (rows : List Row) (now : Int),
      (r :: rows).foldl (fun acc row => acc.process_transaction row now) td
        = rows.foldl (fun acc row => acc.process_transaction row now)
            (td.process_transaction r now)) :=
  ⟨process_transaction_bad_date, put_call_bad_expiry, fun _ _ _ _ => rfl⟩

/-- Witness for C3 (amended) at the concrete bad-expiry Put row. -/
theorem C3_row_failure_recovery_witness :
    ((TransactionData.init 0 0).process_transaction exampleBadExpiryRow
        19787).daily_balances.opt_positions
      = (TransactionData.init 0 0).daily_balances.opt_positions ∧
    ((TransactionData.init 0 0).process_transaction exampleBadExpiryRow
        19787).daily_balances.opt_notional
      = (TransactionData.init 0 0).daily_balances.opt_notional ∧
    ((TransactionData.init 0 0).process_transaction exampleBadExpiryRow
        19787).daily_balances.cash_balances
      = (TransactionData.init 0 0).daily_balances.cash_balances.update
          [.str "A", .str "USD"] 19783 19787
          (TransactionData.parse_amount (.str "150.00")) ∧
    ((TransactionData.init 0 0).process_transaction exampleBadExpiryRow
        19787).daily_balances.revenue
      = (TransactionData.init 0 0).daily_balances.revenue.update
          [.str "A", .str "USD", .str "XYZ", .str "Put"] 19783 19787
          (TransactionData.parse_amount (.str "150.00")) :=
  C3_row_failure_recovery.2.1 (TransactionData.init 0 0) exampleBadExpiryRow 19787
    "A" "USD" "0%" "Put" "XYZ" (.str "150.00") (.num (-1)) "2024-03-01" "not-a-date" 19783
    rfl rfl rfl (by decide) rfl rfl rfl rfl rfl (Or.inl rfl) rfl rfl (by decide)

/-! ### Stock rows and spot queries -/

theorem stk_row_effect (td : TransactionData) (transaction : Row) (now : Int)
    (a c m tick : String) (ng sh : AmountVal) (ds : String) (d : Int)
    (hbom : transaction.acct_bom = none)
    (hacct : transaction.acct = some a)
    (hdate : transaction.date = some ds) (hd : parseDate ds = some d)
    (hcur : transaction.currency = some c) (hmar : transaction.margin = some m)
    (htt : transaction.trans_type = some "Stk")
    (hng : transaction.net_gains = some ng)
    (htick : transaction.ticker = some tick)
    (hsh : transaction.shares = some sh) :
    (td.process_transaction transaction now).daily_balances.stk_shares
        = td.daily_balances.stk_shares.update [.str a, .str c, .str m, .str tick] d now
            (TransactionData.parse_amount sh) ∧
    (td.process_transaction transaction now).daily_balances.stk_notional
        = td.daily_balances.stk_notional.update [.str a, .str c, .str m, .str tick] d now
            (-(TransactionData.parse_amount ng)) := by
  unfold TransactionData.process_transaction
  simp only [hbom, hacct, hdate, hd, hcur, hmar, htt, hng, htick, hsh]
  simp only [reduceIte]
  cases htf : td.first_transaction_date <;> simp only [htf]
  case none => simp [udb_cash, udb_stk_shares, udb_stk_notional]
  case some f =>
    by_cases hlt : d < f <;> simp [hlt, udb_cash, udb_stk_shares, udb_stk_notional]

/-- `get_spot_balance` on a valid category is the filtered fold over the
category's keys in insertion order. -/
theorem get_spot_balance_ok (td : TransactionData) (date : Int) (bt : String)
    (account currency : Option String) (tickers : Option (List String))
    (margin itype : Option String) (cs : CatStore)
    (h : td.daily_balances.getCat bt = some cs) :
    td.get_spot_balance date bt account currency tickers margin itype
      = .ok (cs.keys.foldl (fun acc key =>
          match cs.series key date with
          | none => acc
          | some balance =>
            if matchFilters key bt account currency tickers margin itype then
              (acc.1 + balance,
               bumpKey acc.2 (if bt = "investments" then key.take 3 else key) balance)
            else acc) (0, [])) := by
  unfold TransactionData.get_spot_balance
  rw [h]

/-- C4: a Stk row adds the signed share count to `stk_shares` at
(account, currency, margin, ticker) and the negated net amount to
`stk_notional` at the same key; in the concrete scenario (share count 100,
net gains -5000.00, dated 2024-01-10, appended and queried on 2024-01-15)
the spot balances are 100 and 5000. -/
theorem C4_stk_row :
    (∀ (td : TransactionData) (transaction : Row) (now : Int)
        (a c m tick : String) (ng sh : AmountVal) (ds : String) (d : Int),
      transaction.acct_bom = none → transaction.acct = some a →
      transaction.date = some ds → parseDate ds = some d →
      transaction.currency = some c → transaction.margin = some m →
      transaction.trans_type = some "Stk" → transaction.net_gains = some ng →
      transaction.ticker = some tick → transaction.shares = some sh →
      (td.process_transaction transaction now).daily_balances.stk_shares
          = td.daily_balances.stk_shares.update [.str a, .str c, .str m, .str tick] d now
              (TransactionData.parse_amount sh) ∧
      (td.process_transaction transaction now).daily_balances.stk_notional
          = td.daily_balances.stk_notional.update [.str a, .str c, .str m, .str tick] d now
              (-(TransactionData.parse_amount ng))) ∧
    (∀ d10 d15 : Int, parseDate "2024-01-10" = some d10 → parseDate "2024-01-15" = some d15 →
      ((TransactionData.init 0 0).process_transaction exampleStkRow d15).get_spot_balance
          d15 "stk_shares" (some "A") none none none none
        = .ok (100, [([.str "A", .str "USD", .str "0%", .str "XYZ"], 100)]) ∧
      ((TransactionData.init 0 0).process_transaction exampleStkRow d15).get_spot_balance
          d15 "stk_notional" (some "A") none none none none
        = .ok (5000, [([.str "A", .str "USD", .str "0%", .str "XYZ"], 5000)])) := by
  refine ⟨stk_row_effect, ?_⟩
  intro d10 d15 h10 h15
  rw [show parseDate "2024-01-10" = some 19732 from by decide] at h10
  rw [show parseDate "2024-01-15" = some 19737 from by decide] at h15
  cases h10
  cases h15
  have hs := stk_row_effect (TransactionData.init 0 0) exampleStkRow 19737
    "A" "USD" "0%" "XYZ" (.str "-5000.00") (.str "100") "2024-01-10" 19732
    rfl rfl rfl (by decide) rfl rfl rfl rfl rfl rfl
  constructor
  · rw [get_spot_balance_ok ((TransactionData.init 0 0).process_transaction exampleStkRow 19737)
      19737 "stk_shares" (some "A") none none none none
      ((TransactionData.init 0 0).process_transaction exampleStkRow 19737).daily_balances.stk_shares
      rfl]
    rw [hs.1, parse_amount_100]
    simp only [TransactionData.init, DailyBalances.empty, CatStore.empty, CatStore.update,
      List.not_mem_nil, if_false, List.nil_append, List.foldl_cons, List.foldl_nil,
      eq_self_iff_true, if_true]
    rw [Series.update_apply, if_pos (by omega)]
    simp +decide only [matchFilters, optMatch, reduceIte]
    norm_num [bumpKey, Series.empty]
  · rw [get_spot_balance_ok ((TransactionData.init 0 0).process_transaction exampleStkRow 19737)
      19737 "stk_notional" (some "A") none none none none
      ((TransactionData.init 0 0).process_transaction exampleStkRow 19737).daily_balances.stk_notional
      rfl]
    rw [hs.2, parse_amount_neg5000]
    simp only [TransactionData.init, DailyBalances.empty, CatStore.empty, CatStore.update,
      List.not_mem_nil, if_false, List.nil_append, List.foldl_cons, List.foldl_nil,
      eq_self_iff_true, if_true]
    rw [Series.update_apply, if_pos (by omega)]
    simp +decide only [matchFilters, optMatch, reduceIte]
    norm_num [bumpKey, Series.empty]

/-- Witness for C4 at the concrete day numbers of 2024-01-10 / 2024-01-15. -/
theorem C4_stk_row_witness :
    ((TransactionData.init 0 0).process_transaction exampleStkRow 19737).get_spot_balance
        19737 "stk_shares" (some "A") none none none none
      = .ok (100, [([.str "A", .str "USD", .str "0%", .str "XYZ"], 100)]) ∧
    ((TransactionData.init 0 0).process_transaction exampleStkRow 19737).get_spot_balance
        19737 "stk_notional" (some "A") none none none none
      = .ok (5000, [([.str "A", .str "USD", .str "0%", .str "XYZ"], 5000)]) :=
  C4_stk_row.2 19732 19737 (by decide) (by decide)

/-! ### Option rows -/

theorem put_call_row_effect (td : TransactionData) (transaction : Row) (now : Int)
    (a c m tt tick : String) (ng sh : AmountVal) (ds es : String) (d e : Int)
    (hbom : transaction.acct_bom = none)
    (hacct : transaction.acct = some a)
    (hdate : transaction.date = some ds) (hd : parseDate ds = some d)
    (hcur : transaction.currency = some c) (hmar : transaction.margin = some m)
    (htt : transaction.trans_type = some tt)
    (hng : transaction.net_gains = some ng)
    (htick : transaction.ticker = some tick)
    (hputcall : tt = "Put" ∨ tt = "Call")
    (hsh : transaction.shares = some sh)
    (hexp : transaction.expiry = some es) (he : parseDate es = some e) :
    (td.process_transaction transaction now).daily_balances.opt_positions
        = td.daily_balances.opt_positions.update
            [.str a, .str c, .str m, .str tick, .str tt,
             .num (TransactionData.parse_amount (transaction.strike_price.getD (.str "0"))),
             .num e] d now (TransactionData.parse_amount sh) ∧
    (td.process_transaction transaction now).daily_balances.opt_notional
        = td.daily_balances.opt_notional.update
            [.str a, .str c, .str m, .str tick, .str tt,
             .num (TransactionData.parse_amount (transaction.strike_price.getD (.str "0"))),
             .num e] d now
            (TransactionData.parse_amount sh *
             TransactionData.parse_amount (transaction.strike_price.getD (.str "0"))) ∧
    (td.process_transaction transaction now).daily_balances.revenue
        = td.daily_balances.revenue.update [.str a, .str c, .str tick, .str tt] d now
            (TransactionData.parse_amount ng) := by
  unfold TransactionData.process_transaction
  simp only [hbom, hacct, hdate, hd, hcur, hmar, htt, hng, htick, hsh, hexp, he]
  rcases hputcall with rfl | rfl <;>
  · simp only [reduceIte]
    cases htf : td.first_transaction_date <;> simp only [htf]
    case none =>
      simp [udb_cash, udb_revenue, udb_opt_positions, udb_opt_notional]
    case some f =>
      by_cases hlt : d < f <;>
        simp [hlt, udb_cash, udb_revenue, udb_opt_positions, udb_opt_notional]

theorem parse_amount_neg1 : TransactionData.parse_amount (.str "-1") = -1 := by
  have h : TransactionData.parse_amount (.str "-1") = -1 * ((1 : Nat) : ℚ) := rfl
  rw [h]
  norm_num

theorem parse_amount_50 : TransactionData.parse_amount (.str "50") = 50 := by
  have h : TransactionData.parse_amount (.str "50") = 1 * ((50 : Nat) : ℚ) := rfl
  rw [h]
  norm_num

/-- C5: a Put/Call row adds the signed contract count to `opt_positions` at
the full option key, count × strike to `opt_notional` at the same key, and
the net amount to `revenue` at (account, currency, ticker, type); the
concrete scenario queried on 2024-03-05 yields -1, -50 and 150. -/
theorem C5_option_row :
    (∀ (td : TransactionData) (transaction : Row) (now : Int)
        (a c m tt tick : String) (ng sh : AmountVal) (ds es : String) (d e : Int),
      transaction.acct_bom = none → transaction.acct = some a →
      transaction.date = some ds → parseDate ds = some d →
      transaction.currency = some c → transaction.margin = some m →
      transaction.trans_type = some tt → transaction.net_gains = some ng →
      transaction.ticker = some tick → (tt = "Put" ∨ tt = "Call") →
      transaction.shares = some sh → transaction.expiry = some es →
      parseDate es = some e →
      (td.process_transaction transaction now).daily_balances.opt_positions
          = td.daily_balances.opt_positions.update
              [.str a, .str c, .str m, .str tick, .str tt,
               .num (TransactionData.parse_amount (transaction.strike_price.getD (.str "0"))),
               .num e] d now (TransactionData.parse_amount sh) ∧
      (td.process_transaction transaction now).daily_balances.opt_notional
          = td.daily_balances.opt_notional.update
              [.str a, .str c, .str m, .str tick, .str tt,
               .num (TransactionData.parse_amount (transaction.strike_price.getD (.str "0"))),
               .num e] d now
              (TransactionData.parse_amount sh *
               TransactionData.parse_amount (transaction.strike_price.getD (.str "0"))) ∧
      (td.process_transaction transaction now).daily_balances.revenue
          = td.daily_balances.revenue.update [.str a, .str c, .str tick, .str tt] d now
              (TransactionData.parse_amount ng)) ∧
    (∀ d5 dE : Int, parseDate "2024-03-05" = some d5 → parseDate "2024-06-21" = some dE →
      ((TransactionData.init 0 0).process_transaction examplePutRow d5).get_spot_balance
          d5 "opt_positions" none none none none none
        = .ok (-1, [([.str "A", .str "USD", .str "0%", .str "XYZ", .str "Put",
                      .num 50, .num dE], -1)]) ∧
      ((TransactionData.init 0 0).process_transaction examplePutRow d5).get_spot_balance
          d5 "opt_notional" none none none none none
        = .ok (-50, [([.str "A", .str "USD", .str "0%", .str "XYZ", .str "Put",
                       .num 50, .num dE], -50)]) ∧
      ((TransactionData.init 0 0).process_transaction examplePutRow d5).get_spot_balance
          d5 "revenue" none none (some ["XYZ"]) none none
        = .ok (150, [([.str "A", .str "USD", .str "XYZ", .str "Put"], 150)])) := by
  refine ⟨put_call_row_effect, ?_⟩
  intro d5 dE h5 hE
  rw [show parseDate "2024-03-05" = some 19787 from by decide] at h5
  rw [show parseDate "2024-06-21" = some 19895 from by decide] at hE
  cases h5
  cases hE
  have hs := put_call_row_effect (TransactionData.init 0 0) examplePutRow 19787
    "A" "USD" "0%" "Put" "XYZ" (.str "150.00") (.str "-1") "2024-03-01" "2024-06-21"
    19783 19895 rfl rfl rfl (by decide) rfl rfl rfl rfl rfl (Or.inl rfl) rfl rfl (by decide)
  refine ⟨?_, ?_, ?_⟩
  · rw [get_spot_balance_ok ((TransactionData.init 0 0).process_transaction examplePutRow 19787)
      19787 "opt_positions" none none none none none
      ((TransactionData.init 0 0).process_transaction examplePutRow 19787).daily_balances.opt_positions
      rfl]
    rw [hs.1]
    simp only [examplePutRow, Option.getD, parse_amount_neg1, parse_amount_50]
    simp only [TransactionData.init, DailyBalances.empty, CatStore.empty, CatStore.update,
      List.not_mem_nil, if_false, List.nil_append, List.foldl_cons, List.foldl_nil,
      eq_self_iff_true, if_true]
    rw [Series.update_apply, if_pos (by omega)]
    simp +decide only [matchFilters, optMatch, tickersMatch, reduceIte]
    norm_num [bumpKey, Series.empty]
  · rw [get_spot_balance_ok ((TransactionData.init 0 0).process_transaction examplePutRow 19787)
      19787 "opt_notional" none none none none none
      ((TransactionData.init 0 0).process_transaction examplePutRow 19787).daily_balances.opt_notional
      rfl]
    rw [hs.2.1]
    simp only [examplePutRow, Option.getD, parse_amount_neg1, parse_amount_50]
    simp only [TransactionData.init, DailyBalances.empty, CatStore.empty, CatStore.update,
      List.not_mem_nil, if_false, List.nil_append, List.foldl_cons, List.foldl_nil,
      eq_self_iff_true, if_true]
    rw [Series.update_apply, if_pos (by omega)]
    simp +decide only [matchFilters, optMatch, tickersMatch, reduceIte]
    norm_num [bumpKey, Series.empty]
  · rw [get_spot_balance_ok ((TransactionData.init 0 0).process_transaction examplePutRow 19787)
      19787 "revenue" none none (some ["XYZ"]) none none
      ((TransactionData.init 0 0).process_transaction examplePutRow 19787).daily_balances.revenue
      rfl]
    rw [hs.2.2, parse_amount_150]
    simp only [TransactionData.init, DailyBalances.empty, CatStore.empty, CatStore.update,
      List.not_mem_nil, if_false, List.nil_append, List.foldl_cons, List.foldl_nil,
      eq_self_iff_true, if_true]
    rw [Series.update_apply, if_pos (by omega)]
    simp +decide only [matchFilters, optMatch, tickersMatch, reduceIte]
    norm_num [bumpKey, Series.empty]

/-- Witness for C5 at the concrete day numbers of 2024-03-05 / 2024-06-21. -/
theorem C5_option_row_witness :
    ((TransactionData.init 0 0).process_transaction examplePutRow 19787).get_spot_balance
        19787 "opt_positions" none none none none none
      = .ok (-1, [([.str "A", .str "USD", .str "0%", .str "XYZ", .str "Put",
                    .num 50, .num 19895], -1)]) ∧
    ((TransactionData.init 0 0).process_transaction examplePutRow 19787).get_spot_balance
        19787 "opt_notional" none none none none none
      = .ok (-50, [([.str "A", .str "USD", .str "0%", .str "XYZ", .str "Put",
                     .num 50, .num 19895], -50)]) ∧
    ((TransactionData.init 0 0).process_transaction examplePutRow 19787).get_spot_balance
        19787 "revenue" none none (some ["XYZ"]) none none
      = .ok (150, [([.str "A", .str "USD", .str "XYZ", .str "Put"], 150)]) :=
  C5_option_row.2 19787 19895 (by decide) (by decide)

/-! ### Amount-parser characterization -/

/-- C6: `parse_amount` is total by construction (every raise point is
caught and coerced to 0); a numeric value is returned as-is; after
whitespace stripping the sentinels parse to 0; after stripping currency
symbols and comma separators a parenthesized input yields the negated
interior value and any other input its decimal value; anything that still
fails to parse yields 0 — with the four concrete round-trip values. -/
theorem C6_parse_amount :
    (∀ q : ℚ, TransactionData.parse_amount (.num q) = q) ∧
    (∀ s : String,
      (pyStrip s = "-" ∨ pyStrip s = "" ∨ pyStrip s = "$-" ∨ pyStrip s = " $-") →
      TransactionData.parse_amount (.str s) = 0) ∧
    (∀ (s : String) (q : ℚ),
      ¬ (pyStrip s = "-" ∨ pyStrip s = "" ∨ pyStrip s = "$-" ∨ pyStrip s = " $-") →
      startsChar (cleanCurrency (pyStrip s)) '(' →
      endsChar (cleanCurrency (pyStrip s)) ')' →
      pyFloat ⟨((cleanCurrency (pyStrip s)).data.drop 1).dropLast⟩ = some q →
      TransactionData.parse_amount (.str s) = -q) ∧
    (∀ (s : String) (q : ℚ),
      ¬ (pyStrip s = "-" ∨ pyStrip s = "" ∨ pyStrip s = "$-" ∨ pyStrip s = " $-") →
      ¬ (startsChar (cleanCurrency (pyStrip s)) '(' ∧
         endsChar (cleanCurrency (pyStrip s)) ')') →
      pyFloat (cleanCurrency (pyStrip s)) = some q →
      TransactionData.parse_amount (.str s) = q) ∧
    (∀ s : String,
      ¬ (pyStrip s = "-" ∨ pyStrip s = "" ∨ pyStrip s = "$-" ∨ pyStrip s = " $-") →
      startsChar (cleanCurrency (pyStrip s)) '(' →
      endsChar (cleanCurrency (pyStrip s)) ')' →
      pyFloat ⟨((cleanCurrency (pyStrip s)).data.drop 1).dropLast⟩ = none →
      TransactionData.parse_amount (.str s) = 0) ∧
    (∀ s : String,
      ¬ (pyStrip s = "-" ∨ pyStrip s = "" ∨ pyStrip s = "$-" ∨ pyStrip s = " $-") →
      ¬ (startsChar (cleanCurrency (pyStrip s)) '(' ∧
         endsChar (cleanCurrency (pyStrip s)) ')') →
      pyFloat (cleanCurrency (pyStrip s)) = none →
      TransactionData.parse_amount (.str s) = 0) ∧
    TransactionData.parse_amount (.str "$1,234.56") = 1234.56 ∧
    TransactionData.parse_amount (.str "(500.00)") = -500 ∧
    TransactionData.parse_amount (.str "-") = 0 ∧
    TransactionData.parse_amount (.str "$-") = 0 ∧
    TransactionData.parse_amount (.str " $-") = 0 := by
  refine ⟨fun q => rfl, ?_, ?_, ?_, ?_, ?_, ?_, ?_, rfl, rfl, rfl⟩
  · intro s h
    simp only [TransactionData.parse_amount]
    rw [if_pos h]
  · intro s q hsent hstart hend hfloat
    simp only [TransactionData.parse_amount]
    rw [if_neg hsent, if_pos ⟨hstart, hend⟩, hfloat]
  · intro s q hsent hparen hfloat
    simp only [TransactionData.parse_amount]
    rw [if_neg hsent, if_neg hparen, hfloat]
  · intro s hsent hstart hend hfloat
    simp only [TransactionData.parse_amount]
    rw [if_neg hsent, if_pos ⟨hstart, hend⟩, hfloat]
  · intro s hsent hparen hfloat
    simp only [TransactionData.parse_amount]
    rw [if_neg hsent, if_neg hparen, hfloat]
  · have h : TransactionData.parse_amount (.str "$1,234.56")
        = 1 * (((1234 : Nat) : ℚ) + ((56 : Nat) : ℚ) / (10 : ℚ) ^ (2 : Nat)) := rfl
    rw [h]
    norm_num
  · have h : TransactionData.parse_amount (.str "(500.00)")
        = -(1 * (((500 : Nat) : ℚ) + ((0 : Nat) : ℚ) / (10 : ℚ) ^ (2 : Nat))) := rfl
    rw [h]
    norm_num

/-- Witness for C6's parenthesized-negative rule at `"(500.00)"`. -/
theorem C6_parse_amount_witness :
    TransactionData.parse_amount (.str "(500.00)")
      = -(1 * (((500 : Nat) : ℚ) + ((0 : Nat) : ℚ) / (10 : ℚ) ^ (2 : Nat))) :=
  C6_parse_amount.2.2.1 "(500.00)"
    (1 * (((500 : Nat) : ℚ) + ((0 : Nat) : ℚ) / (10 : ℚ) ^ (2 : Nat)))
    (by decide) (by decide) (by decide) rfl

/-! ### Invalid category names and the empty average range -/

theorem getCat_none_of_not_mem (db : DailyBalances) (bt : String)
    (h : bt ∉ balanceCategories) : db.getCat bt = none := by
  simp only [balanceCategories, List.mem_cons, List.mem_singleton, not_or] at h
  unfold DailyBalances.getCat
  rw [if_neg h.1, if_neg h.2.1, if_neg h.2.2.1, if_neg h.2.2.2.1,
    if_neg h.2.2.2.2.1, if_neg h.2.2.2.2.2.1, if_neg h.2.2.2.2.2.2.1]

/-- C8: a query carrying a category name outside the seven balance
categories raises `ValueError` from both `get_spot_balance` and
`get_average_balance`; the error propagates to the caller (the embedded
queries are pure functions of the state, so the ledger state is untouched by
construction). -/
theorem C8_invalid_category (td : TransactionData) (bt : String)
    (date start_date end_date : Int) (account currency : Option String)
    (tickers : Option (List String)) (margin itype : Option String)
    (h : bt ∉ balanceCategories) :
    td.get_spot_balance date bt account currency tickers margin itype
        = .error (.valueError ("Invalid balance type: " ++ bt)) ∧
    td.get_average_balance start_date end_date bt account currency tickers margin itype
        = .error (.valueError ("Invalid balance type: " ++ bt)) := by
  have hc := getCat_none_of_not_mem td.daily_balances bt h
  constructor
  · unfold TransactionData.get_spot_balance
    rw [hc]
  · unfold TransactionData.get_average_balance
    rw [if_pos (by rw [hc]; rfl)]

/-- Witness for C8 at the category name `"bogus"`. -/
theorem C8_invalid_category_witness :
    (TransactionData.init 0 0).get_spot_balance 0 "bogus" none none none none none
        = .error (.valueError ("Invalid balance type: " ++ "bogus")) ∧
    (TransactionData.init 0 0).get_average_balance 0 5 "bogus" none none none none none
        = .error (.valueError ("Invalid balance type: " ++ "bogus")) :=
  C8_invalid_category (TransactionData.init 0 0) "bogus" 0 0 5 none none none none none
    (by decide)

/-- C10: for every ledger state and valid category, `get_average_balance`
with `end_date` one day before `start_date` has inclusive day count 0, the
accumulation loop runs zero times, and the unguarded final division raises
`ZeroDivisionError`. -/
theorem C10_zero_division (td : TransactionData) (bt : String) (start_date : Int)
    (account currency : Option String) (tickers : Option (List String))
    (margin itype : Option String) (h : bt ∈ balanceCategories) :
    td.get_average_balance start_date (start_date - 1) bt account currency tickers
        margin itype = .error .zeroDivisionError := by
  obtain ⟨cs, hcs⟩ := getCat_of_mem td.daily_balances bt h
  unfold TransactionData.get_average_balance
  rw [if_neg (by simp [hcs])]
  have h0 : (start_date - 1 : Int) - start_date + 1 = 0 := by omega
  rw [h0]
  rfl

/-- Witness for C10 on a fresh ledger over `cash_balances`. -/
theorem C10_zero_division_witness :
    (TransactionData.init 0 0).get_average_balance 7 6 "cash_balances" none none
        none none none = .error .zeroDivisionError :=
  C10_zero_division (TransactionData.init 0 0) "cash_balances" 7 none none none none
    none (by decide)
theorem udb_cache_accounts (td : TransactionData) (bt : String) (k : Key) (d a now) :
    (td.update_daily_balance bt k d a now).cache_accounts = td.cache_accounts := by
  unfold TransactionData.update_daily_balance
  cases td.daily_balances.getCat bt <;> rfl

theorem udb_cache_currencies (td : TransactionData) (bt : String) (k : Key) (d a now) :
    (td.update_daily_balance bt k d a now).cache_currencies = td.cache_currencies := by
  unfold TransactionData.update_daily_balance
  cases td.daily_balances.getCat bt <;> rfl

theorem udb_cache_tickers (td : TransactionData) (bt : String) (k : Key) (d a now) :
    (td.update_daily_balance bt k d a now).cache_tickers = td.cache_tickers := by
  unfold TransactionData.update_daily_balance
  cases td.daily_balances.getCat bt <;> rfl

set_option maxHeartbeats 2000000 in
theorem process_transaction_preserves_caches (td : TransactionData) (transaction : Row)
    (now : Int) :
    (td.process_transaction transaction now).cache_accounts = td.cache_accounts ∧
    (td.process_transaction transaction now).cache_currencies = td.cache_currencies ∧
    (td.process_transaction transaction now).cache_tickers = td.cache_tickers := by
  obtain ⟨bom, acct, dte, cur, mar, tt, ng, tick, nts, sh, sp, exp⟩ := transaction
  unfold TransactionData.process_transaction
  rcases bom with _ | v <;> rcases acct with _ | a <;> rcases dte with _ | ds <;>
    try exact ⟨rfl, rfl, rfl⟩
  all_goals
    rcases hpd : parseDate ds with _ | d <;> try simp only [hpd]
  all_goals try exact ⟨trivial, trivial, trivial⟩
  all_goals
    rcases cur with _ | c <;> rcases mar with _ | m <;> rcases tt with _ | tt <;>
      rcases ng with _ | ngv <;> rcases tick with _ | tk <;> try exact ⟨rfl, rfl, rfl⟩
  all_goals
    rcases htf : td.first_transaction_date with _ | f <;> simp only [htf]
  all_goals try exact ⟨trivial, trivial, trivial⟩
  all_goals
    try (by_cases hlt : d < f <;> [rw [if_pos hlt]; rw [if_neg hlt]])
  all_goals try exact ⟨rfl, rfl, rfl⟩
  all_goals
    try (by_cases hc : tt = "Cash" <;> [rw [if_pos hc]; rw [if_neg hc]])
  all_goals
    try (by_cases h1 : strContains (pyLower (nts.getD "")) "invest" = true ∧
        strContains (pyLower (nts.getD "")) "pre convert" = true <;>
      [rw [if_pos h1]; rw [if_neg h1]])
  all_goals
    try (by_cases h2 : strContains (pyLower (nts.getD "")) "margin cover" = true ∨
        strContains (pyLower (nts.getD "")) "short term juicing" = true <;>
      [rw [if_pos h2]; rw [if_neg h2]])
  all_goals
    try (by_cases h3 : strContains (pyLower (nts.getD "")) "personal withdraw" = true <;>
      [rw [if_pos h3]; rw [if_neg h3]])
  all_goals
    try (by_cases hpc : tt = "Put" ∨ tt = "Call" <;> [rw [if_pos hpc]; rw [if_neg hpc]])
  all_goals
    try (by_cases hrev : tt = "Put" ∨ tt = "Call" ∨ tt = "Cap Gains" ∨ tt = "Div" ∨
        tt = "Int / Tax" <;> [rw [if_pos hrev]; rw [if_neg hrev]])
  all_goals
    try (by_cases hstk : tt = "Stk" <;> [rw [if_pos hstk]; rw [if_neg hstk]])
  all_goals
    try (rcases sh with _ | shv)
  all_goals try exact ⟨rfl, rfl, rfl⟩
  all_goals
    try (rcases exp with _ | es)
  all_goals try exact ⟨rfl, rfl, rfl⟩
  all_goals
    rcases hpe : parseDate es with _ | e <;> simp only [hpe]
  all_goals try exact ⟨trivial, trivial, trivial⟩
  all_goals
    first
      | exact ⟨rfl, rfl, rfl⟩
      | simp [udb_cache_accounts, udb_cache_currencies, udb_cache_tickers]

theorem ite_getElem_some (k : Key) (i : Nat) (e : KElem) :
    ((if i < k.length then k[i]? else none) = some e) ↔ (i < k.length ∧ k[i]? = some e) := by
  split_ifs with hi <;> simp [hi]

theorem get_accounts_fresh (td : TransactionData) (h : td.cache_accounts = none) :
    (∀ e, e ∈ (td.get_accounts).1 ↔
      ∃ k ∈ td.daily_balances.cash_balances.keys, k[0]? = some e) ∧
    (td.get_accounts).1.Nodup := by
  unfold TransactionData.get_accounts
  rw [h]
  constructor
  · intro e
    simp [List.mem_dedup, List.mem_filterMap]
  · simp [List.nodup_dedup]

theorem get_currencies_fresh (td : TransactionData) (h : td.cache_currencies = none) :
    (∀ e, e ∈ (td.get_currencies).1 ↔
      ∃ k ∈ td.daily_balances.cash_balances.keys, k[1]? = some e) ∧
    (td.get_currencies).1.Nodup := by
  unfold TransactionData.get_currencies
  rw [h]
  constructor
  · intro e
    simp [List.mem_dedup, List.mem_filterMap]
  · simp [List.nodup_dedup]

theorem get_tickers_fresh (td : TransactionData) (h : td.cache_tickers = none) :
    (∀ e, e ∈ (td.get_tickers).1 ↔
      ((∃ k ∈ td.daily_balances.revenue.keys, 2 < k.length ∧ k[2]? = some e) ∨
       (∃ k ∈ td.daily_balances.opt_positions.keys, 3 < k.length ∧ k[3]? = some e) ∨
       (∃ k ∈ td.daily_balances.stk_shares.keys, 3 < k.length ∧ k[3]? = some e) ∨
       (∃ k ∈ td.daily_balances.stk_notional.keys, 3 < k.length ∧ k[3]? = some e))) ∧
    (td.get_tickers).1.Nodup := by
  unfold TransactionData.get_tickers
  rw [h]
  constructor
  · intro e
    simp [List.mem_dedup, List.mem_append, List.mem_filterMap, tickersFrom,
      ite_getElem_some]
  · simp [List.nodup_dedup]

theorem get_accounts_cached (td : TransactionData) (l : List KElem)
    (h : td.cache_accounts = some l) : (td.get_accounts).1 = l := by
  unfold TransactionData.get_accounts
  rw [h]

theorem get_currencies_cached (td : TransactionData) (l : List KElem)
    (h : td.cache_currencies = some l) : (td.get_currencies).1 = l := by
  unfold TransactionData.get_currencies
  rw [h]

theorem get_tickers_cached (td : TransactionData) (l : List KElem)
    (h : td.cache_tickers = some l) : (td.get_tickers).1 = l := by
  unfold TransactionData.get_tickers
  rw [h]

/-- C9 counterexample: after `get_accounts` has been called once, appending a
Cash row for a new account "B" via `process_transaction` and calling
`get_accounts` again still returns the stale cached list `["A"]`, even though
"B" now occurs among the `cash_balances` keys — nothing invalidates the
memoization on append. -/
theorem C9_counterexample :
    (((((TransactionData.init 0 0).process_transaction exampleCashRowA
        19723).get_accounts).2.process_transaction exampleCashRowB
        19723).get_accounts).1 = [KElem.str "A"] ∧
    KElem.str "B" ∈ ((((TransactionData.init 0 0).process_transaction exampleCashRowA
        19723).get_accounts).2.process_transaction exampleCashRowB
        19723).daily_balances.cash_balances.keys.filterMap (fun k => k[0]?) := by
  constructor
  · decide
  · decide

/-- C9 (amended): when its memo cache is empty (fresh instance or after
`clear_cache`/`update_cache`), each getter returns exactly the distinct
dimension values of the current state; but a populated cache is returned
verbatim, and `process_transaction` does **not** invalidate any cache, so
after an append the getters can return stale lists until `clear_cache` /
`update_cache` is called explicitly. -/
theorem C9_dimension_getters :
    (∀ td : TransactionData, td.cache_accounts = none →
      (∀ e, e ∈ (td.get_accounts).1 ↔
        ∃ k ∈ td.daily_balances.cash_balances.keys, k[0]? = some e) ∧
      (td.get_accounts).1.Nodup) ∧
    (∀ td : TransactionData, td.cache_currencies = none →
      (∀ e, e ∈ (td.get_currencies).1 ↔
        ∃ k ∈ td.daily_balances.cash_balances.keys, k[1]? = some e) ∧
      (td.get_currencies).1.Nodup) ∧
    (∀ td : TransactionData, td.cache_tickers = none →
      (∀ e, e ∈ (td.get_tickers).1 ↔
        ((∃ k ∈ td.daily_balances.revenue.keys, 2 < k.length ∧ k[2]? = some e) ∨
         (∃ k ∈ td.daily_balances.opt_positions.keys, 3 < k.length ∧ k[3]? = some e) ∨
         (∃ k ∈ td.daily_balances.stk_shares.keys, 3 < k.length ∧ k[3]? = some e) ∨
         (∃ k ∈ td.daily_balances.stk_notional.keys, 3 < k.length ∧ k[3]? = some e))) ∧
      (td.get_tickers).1.Nodup) ∧
    (∀ (td : TransactionData) (transaction : Row) (now : Int),
      (td.process_transaction transaction now).cache_accounts = td.cache_accounts ∧
      (td.process_transaction transaction now).cache_currencies = td.cache_currencies ∧
      (td.process_transaction transaction now).cache_tickers = td.cache_tickers) ∧
    (∀ (td : TransactionData) (l : List KElem),
      td.cache_accounts = some l → (td.get_accounts).1 = l) ∧
    (∀ (td : TransactionData) (l : List KElem),
      td.cache_currencies = some l → (td.get_currencies).1 = l) ∧
    (∀ (td : TransactionData) (l : List KElem),
      td.cache_tickers = some l → (td.get_tickers).1 = l) ∧
    (∀ td : TransactionData,
      (td.clear_cache).cache_accounts = none ∧
      (td.clear_cache).cache_currencies = none ∧
      (td.clear_cache).cache_tickers = none) :=
  ⟨get_accounts_fresh, get_currencies_fresh, get_tickers_fresh,
   process_transaction_preserves_caches,
   get_accounts_cached, get_currencies_cached, get_tickers_cached,
   fun _ => ⟨rfl, rfl, rfl⟩⟩

/-- Witness for C9 (amended) on a fresh one-row ledger. -/
theorem C9_dimension_getters_witness :
    (KElem.str "A" ∈ (((TransactionData.init 0 0).process_transaction exampleCashRowA
        19723).get_accounts).1 ↔
      ∃ k ∈ ((TransactionData.init 0 0).process_transaction exampleCashRowA
        19723).daily_balances.cash_balances.keys, k[0]? = some (KElem.str "A")) ∧
    (((TransactionData.init 0 0).process_transaction exampleCashRowA
        19723).get_accounts).1.Nodup :=
  ⟨(C9_dimension_getters.1 ((TransactionData.init 0 0).process_transaction
      exampleCashRowA 19723) rfl).1 (KElem.str "A"),
   (C9_dimension_getters.1 ((TransactionData.init 0 0).process_transaction
      exampleCashRowA 19723) rfl).2⟩

/-! ### Range averages -/

theorem lookupD_nil (k : Key) : lookupD [] k = 0 := rfl

theorem lookupD_cons (e : Key × ℚ) (l : List (Key × ℚ)) (k : Key) :
    lookupD (e :: l) k = if e.1 = k then e.2 else lookupD l k := by
  unfold lookupD
  rw [List.find?_cons]
  by_cases h : e.1 = k
  · simp [h]
  · simp [h]

theorem lookupD_bumpKey (b : List (Key × ℚ)) (k : Key) (v : ℚ) (x : Key) :
    lookupD (bumpKey b k v) x = lookupD b x + if x = k then v else 0 := by
  induction b with
  | nil =>
    simp only [bumpKey, lookupD_cons, lookupD_nil]
    by_cases h : k = x
    · subst h
      simp
    · rw [if_neg h, if_neg (fun hx => h hx.symm)]
      simp
  | cons e rest ih =>
    simp only [bumpKey]
    by_cases h : e.1 = k
    · rw [if_pos h, lookupD_cons, lookupD_cons]
      by_cases hx : e.1 = x
      · rw [if_pos hx, if_pos hx, if_pos (by rw [← hx, h])]
      · rw [if_neg hx, if_neg hx, if_neg (by rw [← h]; exact fun hh => hx hh.symm)]
        simp
    · rw [if_neg h, lookupD_cons, lookupD_cons, ih]
      by_cases hx : e.1 = x
      · rw [if_pos hx, if_pos hx, if_neg (by rw [← hx]; exact h)]
        simp
      · rw [if_neg hx, if_neg hx]

theorem sumKey_nil (k : Key) : sumKey [] k = 0 := rfl

theorem sumKey_cons (e : Key × ℚ) (l : List (Key × ℚ)) (k : Key) :
    sumKey (e :: l) k = (if e.1 = k then e.2 else 0) + sumKey l k := by
  unfold sumKey
  rw [List.filter_cons]
  by_cases h : e.1 = k
  · simp [h]
  · simp [h]

theorem lookupD_mergeB (l : List (Key × ℚ)) :
    ∀ (b : List (Key × ℚ)) (k : Key),
      lookupD (mergeB b l) k = lookupD b k + sumKey l k := by
  induction l with
  | nil =>
    intro b k
    simp [mergeB, sumKey_nil]
  | cons e rest ih =>
    intro b k
    have : mergeB b (e :: rest) = mergeB (bumpKey b e.1 e.2) rest := rfl
    rw [this, ih, lookupD_bumpKey, sumKey_cons]
    by_cases h : e.1 = k
    · rw [if_pos h, if_pos h.symm]
      ring
    · rw [if_neg h, if_neg (fun hh => h hh.symm)]
      ring

theorem bumpKey_map_fst (b : List (Key × ℚ)) (k : Key) (v : ℚ) :
    (bumpKey b k v).map Prod.fst =
      if k ∈ b.map Prod.fst then b.map Prod.fst else b.map Prod.fst ++ [k] := by
  induction b with
  | nil => simp [bumpKey]
  | cons e rest ih =>
    simp only [bumpKey]
    by_cases h : e.1 = k
    · rw [if_pos h]
      simp [h]
    · rw [if_neg h]
      simp only [List.map_cons, ih, List.mem_cons]
      by_cases hm : k ∈ rest.map Prod.fst
      · rw [if_pos hm, if_pos (Or.inr hm)]
      · rw [if_neg hm, if_neg (by rintro (hh | hh); exacts [h hh.symm, hm hh])]
        simp

theorem bumpKey_nodup (b : List (Key × ℚ)) (k : Key) (v : ℚ)
    (h : (b.map Prod.fst).Nodup) : ((bumpKey b k v).map Prod.fst).Nodup := by
  rw [bumpKey_map_fst]
  by_cases hm : k ∈ b.map Prod.fst
  · rw [if_pos hm]
    exact h
  · rw [if_neg hm]
    simp [List.nodup_append, h, hm]

theorem bumpKey_not_mem (b : List (Key × ℚ)) (k : Key) (v : ℚ)
    (h : k ∉ b.map Prod.fst) : bumpKey b k v = b ++ [(k, v)] := by
  induction b with
  | nil => rfl
  | cons e rest ih =>
    simp only [List.map_cons, List.mem_cons, not_or] at h
    simp only [bumpKey]
    rw [if_neg (fun hh => h.1 hh.symm), ih h.2]
    rfl

theorem mergeB_nodup_eq_append (l : List (Key × ℚ)) :
    ∀ b : List (Key × ℚ),
      (b.map Prod.fst ++ l.map Prod.fst).Nodup → mergeB b l = b ++ l := by
  induction l with
  | nil =>
    intro b _
    simp [mergeB]
  | cons e rest ih =>
    intro b h
    have hnm : e.1 ∉ b.map Prod.fst := by
      intro hmem
      rw [List.nodup_append] at h
      exact h.2.2 hmem (by simp)
    have hstep : mergeB b (e :: rest) = mergeB (bumpKey b e.1 e.2) rest := rfl
    have hih : ((b ++ [(e.1, e.2)]).map Prod.fst ++ rest.map Prod.fst).Nodup := by
      simp only [List.map_append, List.map_cons, List.map_nil, List.append_assoc,
        List.singleton_append]
      simpa using h
    rw [hstep, bumpKey_not_mem b e.1 e.2 hnm, ih (b ++ [(e.1, e.2)]) hih]
    simp

theorem sumKey_eq_zero (l : List (Key × ℚ)) (k : Key) (h : k ∉ l.map Prod.fst) :
    sumKey l k = 0 := by
  induction l with
  | nil => rfl
  | cons e rest ih =>
    simp only [List.map_cons, List.mem_cons, not_or] at h
    rw [sumKey_cons, if_neg (fun hh => h.1 hh.symm), ih h.2]
    ring

theorem sumKey_eq_lookupD (l : List (Key × ℚ)) (k : Key)
    (h : (l.map Prod.fst).Nodup) : sumKey l k = lookupD l k := by
  induction l with
  | nil => rfl
  | cons e rest ih =>
    simp only [List.map_cons, List.nodup_cons] at h
    rw [sumKey_cons, lookupD_cons]
    by_cases he : e.1 = k
    · rw [if_pos he, if_pos he, sumKey_eq_zero rest k (by rw [← he]; exact h.1)]
      ring
    · rw [if_neg he, if_neg he, ih h.2]
      ring

theorem foldl_nodup_preserve (step : (ℚ × List (Key × ℚ)) → Key → (ℚ × List (Key × ℚ)))
    (hstep : ∀ acc k, (step acc k).2 = acc.2 ∨ ∃ bk v, (step acc k).2 = bumpKey acc.2 bk v) :
    ∀ (keys : List Key) (acc : ℚ × List (Key × ℚ)), (acc.2.map Prod.fst).Nodup →
      (((keys.foldl step acc).2).map Prod.fst).Nodup := by
  intro keys
  induction keys with
  | nil =>
    intro acc h
    exact h
  | cons k ks ih =>
    intro acc h
    rw [List.foldl_cons]
    apply ih
    rcases hstep acc k with he | ⟨bk, v, he⟩
    · rw [he]
      exact h
    · rw [he]
      exact bumpKey_nodup _ _ _ h

theorem spot_breakdown_nodup (td : TransactionData) (date : Int) (bt : String)
    (account currency : Option String) (tickers : Option (List String))
    (margin itype : Option String) (cs : CatStore)
    (hcs : td.daily_balances.getCat bt = some cs) :
    ((exBreakdown (td.get_spot_balance date bt account currency tickers margin
      itype)).map Prod.fst).Nodup := by
  rw [get_spot_balance_ok td date bt account currency tickers margin itype cs hcs]
  apply foldl_nodup_preserve
  · intro acc key
    cases cs.series key date with
    | none => exact Or.inl rfl
    | some balance =>
      dsimp only
      by_cases hf : matchFilters key bt account currency tickers margin itype
      · exact Or.inr ⟨(if bt = "investments" then key.take 3 else key), balance,
          by rw [if_pos hf]⟩
      · exact Or.inl (by rw [if_neg hf])
  · exact List.nodup_nil

theorem avgLoop_spec (td : TransactionData) (bt : String)
    (account currency : Option String) (tickers : Option (List String))
    (margin itype : Option String) (cs : CatStore)
    (hcs : td.daily_balances.getCat bt = some cs) :
    ∀ (n : Nat) (cur : Int) (acc : ℚ × List (Key × ℚ)),
      ∃ res : ℚ × List (Key × ℚ),
        avgLoop td bt account currency tickers margin itype n cur acc = .ok res ∧
        res.1 = acc.1 + ∑ i in Finset.range n,
          exTotal (td.get_spot_balance (cur + i) bt account currency tickers
            margin itype) ∧
        ∀ k, lookupD res.2 k = lookupD acc.2 k + ∑ i in Finset.range n,
          sumKey (exBreakdown (td.get_spot_balance (cur + i) bt account currency
            tickers margin itype)) k := by
  intro n
  induction n with
  | zero =>
    intro cur acc
    exact ⟨acc, rfl, by simp, by simp⟩
  | succ n ih =>
    intro cur acc
    obtain ⟨q, hq⟩ : ∃ q, td.get_spot_balance cur bt account currency tickers margin
        itype = .ok q :=
      ⟨_, get_spot_balance_ok td cur bt account currency tickers margin itype cs hcs⟩
    obtain ⟨qt, qb⟩ := q
    have hstep : avgLoop td bt account currency tickers margin itype (n + 1) cur acc
        = avgLoop td bt account currency tickers margin itype n (cur + 1)
            (acc.1 + qt, mergeB acc.2 qb) := by
      conv_lhs => rw [avgLoop]
      rw [hq]
      rfl
    obtain ⟨res, hres, ht, hb⟩ := ih (cur + 1) (acc.1 + qt, mergeB acc.2 qb)
    have hshift : ∀ i : Nat, (cur + 1) + (i : Int) = cur + ((i + 1 : Nat) : Int) := by
      intro i
      push_cast
      ring
    refine ⟨res, by rw [hstep, hres], ?_, ?_⟩
    · rw [ht, Finset.sum_range_succ']
      have hcur0 : cur + ((0 : Nat) : Int) = cur := by push_cast; ring
      rw [hcur0, hq]
      have hsum : (∑ i in Finset.range n,
          exTotal (td.get_spot_balance ((cur + 1) + i) bt account currency tickers
            margin itype))
          = ∑ i in Finset.range n,
          exTotal (td.get_spot_balance (cur + ((i + 1 : Nat) : Int)) bt account
            currency tickers margin itype) := by
        refine Finset.sum_congr rfl fun i _ => ?_
        rw [hshift i]
      rw [hsum]
      show (acc.1 + qt) + _ = _
      rw [show exTotal (Except.ok (qt, qb)) = qt from rfl]
      ring
    · intro k
      rw [hb k, Finset.sum_range_succ']
      have hcur0 : cur + ((0 : Nat) : Int) = cur := by push_cast; ring
      rw [hcur0, hq]
      have hsum : (∑ i in Finset.range n,
          sumKey (exBreakdown (td.get_spot_balance ((cur + 1) + i) bt account
            currency tickers margin itype)) k)
          = ∑ i in Finset.range n,
          sumKey (exBreakdown (td.get_spot_balance (cur + ((i + 1 : Nat) : Int)) bt
            account currency tickers margin itype)) k := by
        refine Finset.sum_congr rfl fun i _ => ?_
        rw [hshift i]
      rw [hsum]
      show lookupD (mergeB acc.2 qb) k + _ = _
      rw [lookupD_mergeB]
      rw [show exBreakdown (Except.ok (qt, qb)) = qb from rfl]
      ring

theorem lookupD_map_div (l : List (Key × ℚ)) (c : ℚ) (k : Key) :
    lookupD (l.map (fun e => (e.1, e.2 / c))) k = lookupD l k / c := by
  induction l with
  | nil => simp [lookupD_nil]
  | cons e rest ih =>
    simp only [List.map_cons, lookupD_cons]
    by_cases h : e.1 = k
    · rw [if_pos h, if_pos h]
    · rw [if_neg h, if_neg h, ih]

/-- C7: for every valid category, filter combination and
`start_date ≤ end_date`, `get_average_balance` succeeds and returns as
aggregate the sum of the daily spot aggregates over the closed range divided
by the inclusive day count, and a breakdown whose value at each key is that
key's daily spot values summed and divided by the same day count; for
`start_date = end_date` it equals `get_spot_balance` exactly. -/
theorem C7_average_balance (td : TransactionData) (bt : String)
    (account currency : Option String) (tickers : Option (List String))
    (margin itype : Option String) (start_date end_date : Int)
    (hbt : bt ∈ balanceCategories) (hse : start_date ≤ end_date) :
    ((td.get_average_balance start_date end_date bt account currency tickers margin
        itype).isOk = true) ∧
    (exTotal (td.get_average_balance start_date end_date bt account currency tickers
        margin itype)
      = (∑ i in Finset.range (end_date - start_date + 1).toNat,
          exTotal (td.get_spot_balance (start_date + i) bt account currency tickers
            margin itype))
        / ((end_date - start_date + 1 : Int) : ℚ)) ∧
    (∀ k : Key,
      exLookup (td.get_average_balance start_date end_date bt account currency
        tickers margin itype) k
      = (∑ i in Finset.range (end_date - start_date + 1).toNat,
          exLookup (td.get_spot_balance (start_date + i) bt account currency tickers
            margin itype) k)
        / ((end_date - start_date + 1 : Int) : ℚ)) ∧
    (start_date = end_date →
      td.get_average_balance start_date end_date bt account currency tickers margin
          itype
        = td.get_spot_balance start_date bt account currency tickers margin itype) := by
  obtain ⟨cs, hcs⟩ := getCat_of_mem td.daily_balances bt hbt
  have hdc : (end_date - start_date + 1 : Int) ≠ 0 := by omega
  obtain ⟨res, hloop, ht, hb⟩ := avgLoop_spec td bt account currency tickers margin
    itype cs hcs (end_date - start_date + 1).toNat start_date (0, [])
  obtain ⟨rt, rb⟩ := res
  dsimp only at ht hb
  have havg : td.get_average_balance start_date end_date bt account currency tickers
      margin itype
      = .ok (rt / ((end_date - start_date + 1 : Int) : ℚ),
             rb.map (fun e => (e.1, e.2 / ((end_date - start_date + 1 : Int) : ℚ)))) := by
    unfold TransactionData.get_average_balance
    rw [if_neg (by simp [hcs])]
    dsimp only
    rw [hloop]
    show (match pyDivQ rt (end_date - start_date + 1) with
      | Except.error e => Except.error e
      | Except.ok average_total =>
          Except.ok (average_total,
            rb.map (fun e : Key × ℚ =>
              (e.1, e.2 / ((end_date - start_date + 1 : Int) : ℚ))))) = _
    unfold pyDivQ
    rw [if_neg hdc]
  refine ⟨by rw [havg]; rfl, ?_, ?_, ?_⟩
  · rw [havg]
    show rt / _ = _
    rw [ht]
    norm_num
  · intro k
    rw [havg]
    show lookupD (rb.map _) k = _
    rw [lookupD_map_div, hb k]
    rw [lookupD_nil, zero_add]
    congr 1
    refine Finset.sum_congr rfl fun i _ => ?_
    exact sumKey_eq_lookupD _ k
      (spot_breakdown_nodup td (start_date + i) bt account currency tickers margin
        itype cs hcs)
  · intro heq
    subst heq
    obtain ⟨q, hq⟩ : ∃ q, td.get_spot_balance start_date bt account currency tickers
        margin itype = .ok q :=
      ⟨_, get_spot_balance_ok td start_date bt account currency tickers margin itype
        cs hcs⟩
    obtain ⟨qt, qb⟩ := q
    have hqbn : (qb.map Prod.fst).Nodup := by
      have := spot_breakdown_nodup td start_date bt account currency tickers margin
        itype cs hcs
      rw [hq] at this
      exact this
    have hone : ((start_date - start_date + 1 : Int)).toNat = 1 := by omega
    have h1 : avgLoop td bt account currency tickers margin itype
        ((start_date - start_date + 1 : Int)).toNat start_date (0, [])
        = .ok (0 + qt, mergeB [] qb) := by
      rw [hone]
      conv_lhs => rw [avgLoop]
      rw [hq]
      rfl
    have hmerge : mergeB [] qb = qb := by
      have := mergeB_nodup_eq_append qb [] (by simpa using hqbn)
      simpa using this
    unfold TransactionData.get_average_balance
    rw [if_neg (by simp [hcs])]
    dsimp only
    rw [h1]
    show (match pyDivQ (0 + qt) (start_date - start_date + 1) with
      | Except.error e => Except.error e
      | Except.ok average_total =>
          Except.ok (average_total,
            (mergeB [] qb).map
              (fun e : Key × ℚ =>
                (e.1, e.2 / ((start_date - start_date + 1 : Int) : ℚ))))) = _
    unfold pyDivQ
    rw [if_neg (by omega)]
    rw [hq, hmerge]
    have harith : (start_date - start_date + 1 : Int) = 1 := by omega
    rw [harith]
    have hmap : qb.map (fun e => (e.1, e.2 / (((1 : Int) : ℚ)))) = qb := by
      have hid : ∀ e : Key × ℚ, (e.1, e.2 / (((1 : Int) : ℚ))) = e := by
        intro e
        norm_num
      simp [hid]
    rw [hmap]
    norm_num

/-- Witness for C7's average boundary on the one-stock-row ledger:
`get_average_balance(D, D)` equals `get_spot_balance(D)`. -/
theorem C7_average_balance_witness :
    ((TransactionData.init 0 0).process_transaction exampleStkRow
        19737).get_average_balance 19737 19737 "stk_shares" (some "A") none none
        none none
      = ((TransactionData.init 0 0).process_transaction exampleStkRow
        19737).get_spot_balance 19737 "stk_shares" (some "A") none none none none :=
  (C7_average_balance ((TransactionData.init 0 0).process_transaction exampleStkRow
      19737) "stk_shares" (some "A") none none none none 19737 19737
    (by decide) (by omega)).2.2.2 rfl
